import Mathlib

/-!
Shallow embedding of the core of the pinpad-issue-detection-system
(MicroTrax OpenEPS journal-log analyzer) and proofs about it.

Python sources embedded here:
  * `ingestion/parser.py`            — `LogParser.parse_line`
  * `ingestion/repeat_expander.py`   — `RepeatExpander.process`
  * `segmentation/state_machine.py`  — `SCATStateMachine`
  * `segmentation/transaction_segmenter.py` — `TransactionSegmenter`
  * `segmentation/health_segmenter.py`      — `HealthSegmenter`
  * `ml/rules.py`                    — `_check_scat_dead`, `_check_card_read_intermittent`

Modelling conventions:
  * Python `datetime` values are linearized to `ℚ` (seconds, millisecond
    precision) through the standard civil-calendar day count; the only
    operations the embedded code performs on datetimes are subtraction,
    comparison and equality, all preserved by the linearization.
  * Python floats are modelled as exact rationals `ℚ`.
  * Each `re` pattern of the source is embedded as a dedicated scanner over
    `List Char` implementing `re.search`/`re.match` semantics (leftmost
    starting position; greedy/lazy quantifiers as the pattern writes them).
  * A Python exception (`strptime` raising `ValueError`) is modelled as
    `Except.error`.
  * The f-string evidence of `ml/rules.py` issues is modelled structurally:
    an issue record carries the numbers and booleans that the source
    interpolates or conditionally appends, rather than the rendered string.
-/

namespace Pinpad

/-! ### ASCII character classes of the regex micro-grammars -/

/-- Regex class `\d` (ASCII). -/
def isDigitChar (c : Char) : Bool := '0' ≤ c && c ≤ '9'

/-- Regex class `\w` (ASCII letters, digits, underscore). -/
def isWordChar (c : Char) : Bool :=
  ('a' ≤ c && c ≤ 'z') || ('A' ≤ c && c ≤ 'Z') || isDigitChar c || c = '_'

/-- Regex class `\s` (ASCII whitespace). -/
def isSpaceChar (c : Char) : Bool :=
  c = ' ' || c = '\t' || c = '\n' || c = '\r' || c = '\x0b' || c = '\x0c'

/-! ### Scanner combinators (Python `re.search` / `re.match` semantics) -/

/-- Strip an expected literal from the front, returning the rest. -/
def stripLit : List Char → List Char → Option (List Char)
  | [], s => some s
  | _ :: _, [] => none
  | l :: ls, c :: cs => if c = l then stripLit ls cs else none

/-- Maximal run of characters satisfying `p` (greedy `p*`). -/
def takeRun (p : Char → Bool) : List Char → (List Char × List Char)
  | [] => ([], [])
  | c :: cs =>
    if p c then
      let (r, rest) := takeRun p cs
      (c :: r, rest)
    else ([], c :: cs)

/-- Greedy `p+`: maximal run, requiring at least one character. -/
def run1 (p : Char → Bool) (s : List Char) : Option (List Char × List Char) :=
  match takeRun p s with
  | ([], _) => none
  | (r, rest) => some (r, rest)

/-- Leftmost search: try the matcher at every suffix, leftmost first
(the semantics of `re.search`). -/
def searchLeft {α : Type} (f : List Char → Option α) : List Char → Option α
  | [] => f []
  | c :: cs =>
    match f (c :: cs) with
    | some r => some r
    | none => searchLeft f cs

/-- Rightmost search: try the matcher at every suffix, rightmost first
(the semantics a greedy `.+` induces on what follows it). -/
def searchRight {α : Type} (f : List Char → Option α) : List Char → Option α
  | [] => f []
  | c :: cs =>
    match searchRight f cs with
    | some r => some r
    | none => f (c :: cs)

/-- Numeric value of a digit string (Python `int`). -/
def natOfDigits (ds : List Char) : Nat :=
  ds.foldl (fun acc c => 10 * acc + (c.toNat - '0'.toNat)) 0

/-- Two digits, as in `\d{2}`. -/
def digits2 : List Char → Option (Nat × List Char)
  | c1 :: c2 :: rest =>
    if isDigitChar c1 && isDigitChar c2 then
      some (natOfDigits [c1, c2], rest)
    else none
  | _ => none

/-- Three digits, as in `\d{3}`. -/
def digits3 : List Char → Option (Nat × List Char)
  | c1 :: c2 :: c3 :: rest =>
    if isDigitChar c1 && isDigitChar c2 && isDigitChar c3 then
      some (natOfDigits [c1, c2, c3], rest)
    else none
  | _ => none

/-- Python `str.rstrip()`: drop trailing whitespace. -/
def rstrip (s : List Char) : List Char :=
  (s.reverse.dropWhile isSpaceChar).reverse

/-- Python `str.strip()`: drop leading and trailing whitespace. -/
def pstrip (s : List Char) : List Char :=
  ((s.dropWhile isSpaceChar).reverse.dropWhile isSpaceChar).reverse

/-- Python `needle in haystack` substring test. -/
def containsSub (haystack needle : List Char) : Bool :=
  (searchLeft (fun s => stripLit needle s) haystack).isSome

/-! ### Datetimes (`MM/DD/YY HH:MM:SS.mmm`, Python `datetime.strptime`) -/

/-- Fields captured from the `%m/%d/%y %H:%M:%S.%f` timestamp. -/
structure PDateTime where
  month : Nat
  day : Nat
  year : Nat
  hour : Nat
  minute : Nat
  second : Nat
  millis : Nat
deriving DecidableEq, Repr

/-- Python `%y` pivot: `00`–`68` → 2000s, `69`–`99` → 1900s. -/
def yearOfTwoDigit (yy : Nat) : Nat := if yy ≤ 68 then 2000 + yy else 1900 + yy

def isLeapYear (y : Nat) : Bool :=
  y % 4 = 0 && (y % 100 ≠ 0 || y % 400 = 0)

def daysInMonth (y m : Nat) : Nat :=
  if m = 2 then (if isLeapYear y then 29 else 28)
  else if m = 4 || m = 6 || m = 9 || m = 11 then 30
  else 31

/-- Validity of the captured fields exactly where `datetime.strptime` would
succeed: months 1–12, a day existing in that month, and in-range time parts
(`strptime`/`datetime` reject hour > 23, minute > 59, second > 59). -/
def validDateTime (t : PDateTime) : Bool :=
  1 ≤ t.month && t.month ≤ 12 &&
  1 ≤ t.day && t.day ≤ daysInMonth t.year t.month &&
  t.hour ≤ 23 && t.minute ≤ 59 && t.second ≤ 59

/-- Days from 1970-01-01 of a civil date (standard days-from-civil
algorithm; divisions are truncating, matching their use on the
non-negative intermediate values arising for years 1969–2068). -/
def daysFromCivil (y m d : Int) : Int :=
  let y1 : Int := y - (if m ≤ 2 then 1 else 0)
  let era : Int := (if 0 ≤ y1 then y1 else y1 - 399) / 400
  let yoe : Int := y1 - era * 400
  let doy : Int := (153 * (m + (if 2 < m then -3 else 9)) + 2) / 5 + d - 1
  let doe : Int := yoe * 365 + yoe / 4 - yoe / 100 + doy
  era * 146097 + doe - 719468

/-- Linearization of a datetime to rational seconds since the epoch. -/
def dtToSec (t : PDateTime) : ℚ :=
  ((daysFromCivil (Int.ofNat t.year) (Int.ofNat t.month) (Int.ofNat t.day) * 86400
    + Int.ofNat t.hour * 3600 + Int.ofNat t.minute * 60 + Int.ofNat t.second : Int) : ℚ)
  + (t.millis : ℚ) / 1000

/-! ### `ingestion/models.py` -/

/-- `LogEntry` dataclass. -/
structure LogEntry where
  line_number : Nat
  timestamp : ℚ
  category : String
  message : String
  is_expanded : Bool := false
  expansion_count : Nat := 1
  source_file : String := ""
deriving DecidableEq, Repr

/-- `RepeatDirective` dataclass. -/
structure RepeatDirective where
  line_count : Nat
  repeat_count : Nat
  line_number : Nat := 0
deriving DecidableEq, Repr

/-! ### `ingestion/parser.py` -/

/-- `REPEAT_PATTERN = ^\s+\(Above (\d+ )?Lines? Repeated (\d+) Times?\)$`,
applied with `.match`.  Returns `(line_count, repeat_count)` with the
source's default `line_count = 1` when the optional group is absent.  The
final `$` accepts one trailing newline, as Python `$` does. -/
def matchRepeat (raw : List Char) : Option (Nat × Nat) := do
  let (ws, r1) := takeRun isSpaceChar raw
  if ws.isEmpty then none else do
  let r2 ← stripLit "(Above ".toList r1
  let (line_count, r4) ←
    match run1 isDigitChar r2 with
    | some (ds, r3) =>
      match r3 with
      | ' ' :: r4 => some (natOfDigits ds, r4)
      | _ => none
    | none => some (1, r2)
  let r5 ← stripLit "Line".toList r4
  let r6 := match r5 with
    | 's' :: rest => rest
    | _ => r5
  let r7 ← stripLit " Repeated ".toList r6
  let (ds2, r8) ← run1 isDigitChar r7
  let r9 ← stripLit " Time".toList r8
  let r10 := match r9 with
    | 's' :: rest => rest
    | _ => r9
  let r11 ← stripLit ")".toList r10
  match r11 with
  | [] => some (line_count, natOfDigits ds2)
  | ['\n'] => some (line_count, natOfDigits ds2)
  | _ => none

/-- The 7 category tokens of `LINE_PATTERN`, in alternation order. -/
def categoryTokens : List String :=
  ["TCP/IP", "DLL-IN", "DLL-EX", "SERIAL", "SVREPS", "METRIC", "MTXPOS"]

/-- A separator character followed by `\d{2}`. -/
def sepDigits2 (sep : Char) (s : List Char) : Option (Nat × List Char) := do
  let r1 ← stripLit [sep] s
  digits2 r1

/-- The `\d{2}/\d{2}/\d{2}` date part of the timestamp. -/
def matchDatePart (raw : List Char) : Option (Nat × Nat × Nat × List Char) := do
  let (mm, r1) ← digits2 raw
  let (dd, r2) ← sepDigits2 '/' r1
  let (yy, r3) ← sepDigits2 '/' r2
  some (mm, dd, yy, r3)

/-- The `\d{2}:\d{2}:\d{2}\.\d{3}` time part of the timestamp. -/
def matchTimePart (raw : List Char) : Option (Nat × Nat × Nat × Nat × List Char) := do
  let (hh, r1) ← digits2 raw
  let (mi, r2) ← sepDigits2 ':' r1
  let (ss, r3) ← sepDigits2 ':' r2
  let r4 ← stripLit ".".toList r3
  let (ms, r5) ← digits3 r4
  some (hh, mi, ss, ms, r5)

/-- The whole `\d{2}/\d{2}/\d{2} \d{2}:\d{2}:\d{2}\.\d{3}` timestamp group. -/
def matchTimestamp (raw : List Char) : Option (PDateTime × List Char) := do
  let (mm, dd, yy, r1) ← matchDatePart raw
  let r2 ← stripLit " ".toList r1
  let (hh, mi, ss, ms, r3) ← matchTimePart r2
  some (⟨mm, dd, yearOfTwoDigit yy, hh, mi, ss, ms⟩, r3)

/-- `LINE_PATTERN` applied with `.match`: `^(\d{2}/\d{2}/\d{2}
\d{2}:\d{2}:\d{2}\.\d{3}) (TCP/IP|…|MTXPOS) (.*)$` with `re.DOTALL`, so the
message group is the whole remainder of the line.  Returns the raw captured
datetime fields (not yet validated), the category, and the message. -/
def matchLine (raw : List Char) : Option (PDateTime × String × List Char) := do
  let (dt, r1) ← matchTimestamp raw
  let r2 ← stripLit " ".toList r1
  let (cat, r3) ← categoryTokens.findSome? fun c =>
    (stripLit c.toList r2).map fun rest => (c, rest)
  let r4 ← stripLit " ".toList r3
  some (dt, cat, r4)

/-- The union result type of `LogParser.parse_line`. -/
inductive Parsed where
  | entry (e : LogEntry)
  | directive (d : RepeatDirective)
deriving DecidableEq, Repr

/-- `LogParser.parse_line`: repeat pattern first, then the standard line
pattern.  `datetime.strptime` raising `ValueError` on a line whose shape
matches but whose digits form no valid datetime is modelled as
`Except.error ()`; an unrecognized line is `Except.ok none`. -/
def parse_line (source_file : String) (raw : String) (line_number : Nat) :
    Except Unit (Option Parsed) :=
  match matchRepeat raw.toList with
  | some (lc, rc) =>
    .ok (some (.directive { line_count := lc, repeat_count := rc, line_number }))
  | none =>
    match matchLine raw.toList with
    | some (dt, cat, msg) =>
      if validDateTime dt then
        .ok (some (.entry
          { line_number
            timestamp := dtToSec dt
            category := cat
            message := String.mk (rstrip msg)
            source_file }))
      else .error ()
    | none => .ok none

/-! ### `ingestion/repeat_expander.py` -/

/-- The copy of a buffered line that a directive replays: `is_expanded=True`,
`expansion_count=repeat_count`, all other fields identical to the source. -/
def expandedCopy (repeat_count : Nat) (line : LogEntry) : LogEntry :=
  { line_number := line.line_number
    timestamp := line.timestamp
    category := line.category
    message := line.message
    is_expanded := true
    expansion_count := repeat_count
    source_file := line.source_file }

/-- `deque(maxlen=max_lookback)` append: the oldest entry is dropped once the
buffer is full. -/
def ringAppend (max_lookback : Nat) (buffer : List LogEntry) (e : LogEntry) :
    List LogEntry :=
  if max_lookback = 0 then []
  else if buffer.length = max_lookback then buffer.drop 1 ++ [e]
  else buffer ++ [e]

/-- Python slice `buf_list[-line_count:]`: the last `line_count` elements for
a positive count (the whole list when fewer exist), the whole list for `-0`. -/
def sliceLastN (l : List LogEntry) (n : Nat) : List LogEntry :=
  if n = 0 then l else l.drop (l.length - n)

/-- One loop iteration of `RepeatExpander.process`: the new ring buffer and
the entries yielded for this item.  Expanded copies are not added back to
the buffer; a directive over an empty selection yields nothing. -/
def expandStep (max_lookback : Nat) (buffer : List LogEntry) :
    Parsed → List LogEntry × List LogEntry
  | .directive d =>
    let source_lines := sliceLastN buffer d.line_count
    if source_lines.isEmpty then (buffer, [])
    else
      (buffer,
        (List.replicate d.repeat_count
          (source_lines.map (expandedCopy d.repeat_count))).flatten)
  | .entry e => (ringAppend max_lookback buffer e, [e])

/-- `RepeatExpander.process` from a given buffer state. -/
def expandGo (max_lookback : Nat) (buffer : List LogEntry) :
    List Parsed → List LogEntry
  | [] => []
  | item :: items =>
    let (buffer2, out) := expandStep max_lookback buffer item
    out ++ expandGo max_lookback buffer2 items

/-- `RepeatExpander.process` over a whole item stream, from the fresh
(empty-buffer) expander `__init__` builds. -/
def expandProcess (max_lookback : Nat) (items : List Parsed) : List LogEntry :=
  expandGo max_lookback [] items

/-! ### `segmentation/state_machine.py` -/

/-- `SCATStateChange` dataclass (the `alive_status` field, always left at its
`None` default by this tracker, is omitted). -/
structure SCATStateChange where
  timestamp : ℚ
  new_state : String
  old_state : String
deriving DecidableEq, Repr

/-- `SCAT_STATE_PATTERN = >>>>>>SCATState = (\S+)\s+- was (\S+)` at one
starting position. -/
def scatStateAt (s : List Char) : Option (String × String) := do
  let r1 ← stripLit ">>>>>>SCATState = ".toList s
  let (g1, r2) ← run1 (fun c => !isSpaceChar c) r1
  let (sp, r3) := takeRun isSpaceChar r2
  if sp.isEmpty then none else do
  let r4 ← stripLit "- was ".toList r3
  let (g2, _) ← run1 (fun c => !isSpaceChar c) r4
  some (String.mk g1, String.mk g2)

/-- `ALIVE_PATTERN = SCATAliveInt = (\d) \((\w+)\)` at one starting
position. -/
def alivePatternAt (s : List Char) : Option (Nat × String) := do
  let r1 ← stripLit "SCATAliveInt = ".toList s
  match r1 with
  | c :: r2 =>
    if isDigitChar c then do
      let r3 ← stripLit " (".toList r2
      let (w, r4) ← run1 isWordChar r3
      let _ ← stripLit ")".toList r4
      some (natOfDigits [c], String.mk w)
    else none
  | [] => none

/-- `SCATStateMachine` mutable state; `__init__` values as defaults. -/
structure SCATStateMachine where
  current_state : String := "StateNone"
  alive_status : Nat := 9
  state_history : List SCATStateChange := []
  alive_history : List (ℚ × Nat × String) := []
deriving DecidableEq, Repr

/-- The state-change check of `SCATStateMachine.process_entry`: the
`SCAT_STATE_PATTERN` match updates `current_state` and always appends to
`state_history`. -/
def processStateMarker (m : SCATStateMachine) (entry : LogEntry) : SCATStateMachine :=
  match searchLeft scatStateAt entry.message.toList with
  | some (g1, g2) =>
    let new_state := String.mk (pstrip g1.toList)
    let old_state := String.mk (pstrip g2.toList)
    { m with
        current_state := new_state
        state_history := m.state_history ++ [⟨entry.timestamp, new_state, old_state⟩] }
  | none => m

/-- The alive-status check of `SCATStateMachine.process_entry`: the
`ALIVE_PATTERN` match appends a `(timestamp, status, name)` transition only
when the status differs from the current one. -/
def processAliveMarker (m : SCATStateMachine) (entry : LogEntry) : SCATStateMachine :=
  match searchLeft alivePatternAt entry.message.toList with
  | some (status, name) =>
    if status ≠ m.alive_status then
      { m with
          alive_status := status
          alive_history := m.alive_history ++ [(entry.timestamp, status, name)] }
    else m
  | none => m

/-- `SCATStateMachine.process_entry`: the state-change check followed by the
alive-status check. -/
def process_entry (m : SCATStateMachine) (entry : LogEntry) : SCATStateMachine :=
  processAliveMarker (processStateMarker m entry) entry

/-- A fresh `SCATStateMachine` run over a list of entries. -/
def runMachine (entries : List LogEntry) : SCATStateMachine :=
  entries.foldl process_entry {}

/-- The loop of `SCATStateMachine.get_dead_periods`: scans the alive history
carrying `dead_start`, emitting a `(start, end, duration_sec)` period at each
non-zero transition that closes a zero run; returns the periods and the final
`dead_start`. -/
def deadScan :
    List (ℚ × Nat × String) → Option ℚ → List (ℚ × ℚ × ℚ) × Option ℚ
  | [], ds => ([], ds)
  | (ts, status, _nm) :: rest, none =>
    deadScan rest (if status = 0 then some ts else none)
  | (ts, status, _nm) :: rest, some d =>
    if status ≠ 0 then
      let (ps, fin) := deadScan rest none
      ((d, ts, ts - d) :: ps, fin)
    else deadScan rest (some d)

/-- `SCATStateMachine.get_dead_periods`: the scan's closed periods, plus an
open-ended period `(dead_start, last_ts, last_ts - dead_start)` when the
history ends while still dead, `last_ts` being the last recorded
transition's timestamp. -/
def get_dead_periods (m : SCATStateMachine) : List (ℚ × ℚ × ℚ) :=
  let (periods, dead_start) := deadScan m.alive_history none
  match dead_start, m.alive_history.getLast? with
  | some d, some (last_ts, _, _) => periods ++ [(d, last_ts, last_ts - d)]
  | _, _ => periods

/-! ### `segmentation/transaction_segmenter.py` — the regex micro-grammars

Messages never contain newlines (the parser's input is a single line and
trailing newlines are stripped), so the `.`-does-not-match-newline
restriction of the source's non-DOTALL patterns is vacuous here. -/

/-- Matcher for `lit(P+)` at one position: the literal, then a greedy
maximal run of `p` (at least one character) as the capture. -/
def litCapAt (lit : List Char) (p : Char → Bool) (s : List Char) : Option String := do
  let r1 ← stripLit lit s
  let (cap, _) ← run1 p r1
  some (String.mk cap)

/-- Matcher for `lit(P+)trail` at one position: as `litCapAt` but the
maximal run must be followed by the trailing literal. -/
def litCapTrailAt (lit : List Char) (p : Char → Bool) (trail : List Char)
    (s : List Char) : Option String := do
  let r1 ← stripLit lit s
  let (cap, r2) ← run1 p r1
  let _ ← stripLit trail r2
  some (String.mk cap)

/-- Matcher for `lit(C)` at one position: the literal then a single
character of the class as the capture. -/
def litChar1At (lit : List Char) (p : Char → Bool) (s : List Char) : Option String := do
  let r1 ← stripLit lit s
  match r1 with
  | c :: _ => if p c then some (String.mk [c]) else none
  | [] => none

/-- Matcher for `lit(\w{2})` at one position. -/
def litWord2At (lit : List Char) (s : List Char) : Option String := do
  let r1 ← stripLit lit s
  match r1 with
  | c1 :: c2 :: _ =>
    if isWordChar c1 && isWordChar c2 then some (String.mk [c1, c2]) else none
  | _ => none

/-- Matcher for `lit(\d{3})` at one position. -/
def litDigits3At (lit : List Char) (s : List Char) : Option String := do
  let r1 ← stripLit lit s
  match r1 with
  | c1 :: c2 :: c3 :: _ =>
    if isDigitChar c1 && isDigitChar c2 && isDigitChar c3 then
      some (String.mk [c1, c2, c3])
    else none
  | _ => none

/-- `PATTERNS["tender_type_set"] = MTX_POS_SET_TenderTypePOS = [0-9A-F]`. -/
def tenderTypeSetSearch (msg : List Char) : Option String :=
  searchLeft
    (litChar1At "MTX_POS_SET_TenderTypePOS = ".toList
      (fun c => isDigitChar c || ('A' ≤ c && c ≤ 'F')))
    msg

/-- `PATTERNS["tender_type"] = TenderTypeMTXi = \S+ <(\w+[\s\w]*)>` at one
position: the capture is a word character followed by a maximal run of word
or space characters, closed by `>`. -/
def tenderTypeAt (s : List Char) : Option String := do
  let r1 ← stripLit "TenderTypeMTXi = ".toList s
  let (_, r2) ← run1 (fun c => !isSpaceChar c) r1
  let r3 ← stripLit " <".toList r2
  match r3 with
  | c :: r4 =>
    if isWordChar c then
      let (body, r5) := takeRun (fun x => isSpaceChar x || isWordChar x) r4
      match stripLit ">".toList r5 with
      | some _ => some (String.mk (c :: body))
      | none => none
    else none
  | [] => none

def tenderTypeSearch (msg : List Char) : Option String :=
  searchLeft tenderTypeAt msg

/-- `PATTERNS["card_entry"] = CardEntryType = (\w)`. -/
def cardEntrySearch (msg : List Char) : Option String :=
  searchLeft (litChar1At "CardEntryType = ".toList isWordChar) msg

/-- `PATTERNS["aid"] = AppID >(\w+)<`. -/
def aidSearch (msg : List Char) : Option String :=
  searchLeft (litCapTrailAt "AppID >".toList isWordChar "<".toList) msg

/-- `PATTERNS["app_label"] = AppLabel >([^<]+)<`. -/
def appLabelSearch (msg : List Char) : Option String :=
  searchLeft (litCapTrailAt "AppLabel >".toList (fun c => c ≠ '<') "<".toList) msg

/-- `PATTERNS["cvm_result"] = CVMR >(\w+)<`. -/
def cvmResultSearch (msg : List Char) : Option String :=
  searchLeft (litCapTrailAt "CVMR >".toList isWordChar "<".toList) msg

/-- `PATTERNS["tvr"] = tvr=(\w+),`. -/
def tvrSearch (msg : List Char) : Option String :=
  searchLeft (litCapTrailAt "tvr=".toList isWordChar ",".toList) msg

/-- `PATTERNS["quickchip"] = IsQuickChip=(\w)`. -/
def quickchipSearch (msg : List Char) : Option String :=
  searchLeft (litChar1At "IsQuickChip=".toList isWordChar) msg

/-- `PATTERNS["auth_number"] = AuthorizationNumber = (\w+)`. -/
def authNumberSearch (msg : List Char) : Option String :=
  searchLeft (litCapAt "AuthorizationNumber = ".toList isWordChar) msg

/-- `PATTERNS["response_code"] = ResponseCode = (\w+)`. -/
def responseCodeSearch (msg : List Char) : Option String :=
  searchLeft (litCapAt "ResponseCode = ".toList isWordChar) msg

/-- `PATTERNS["host_response"] = HostResponseCode = (\d+)`. -/
def hostResponseSearch (msg : List Char) : Option String :=
  searchLeft (litCapAt "HostResponseCode = ".toList isDigitChar) msg

/-- `PATTERNS["scat_state"] = >>>>>>SCATState = (\w+)` (the segmenter's
`\w+` variant, distinct from the state machine's `\S+` pattern). -/
def scatStateWordSearch (msg : List Char) : Option String :=
  searchLeft (litCapAt ">>>>>>SCATState = ".toList isWordChar) msg

/-- The tail `([^<]+)<` after the rightmost ` >` for
`PATTERNS["cmd_sequence"] = \*{4}COMMAND SEQUENCE for .+ >([^<]+)<`:
the greedy `.+` gives the rightmost ` >` admitting a match of the rest. -/
def cmdSequenceAt (s : List Char) : Option String := do
  let r1 ← stripLit "****COMMAND SEQUENCE for ".toList s
  match r1 with
  | _first :: rest =>
    searchRight (litCapTrailAt " >".toList (fun c => c ≠ '<') "<".toList) rest
  | [] => none

def cmdSequenceSearch (msg : List Char) : Option String :=
  searchLeft cmdSequenceAt msg

/-- The lazy tail `.*?Ae(\d+)` of the host-exchange patterns: the earliest
following `Ae` run of digits. -/
def aeSearch (s : List Char) : Option String :=
  searchLeft (litCapAt "Ae".toList isDigitChar) s

/-- `PATTERNS["se_send"] = SE_SEND\(TimeOutSecs (\d+)\).*?URL\[([^\]]+)\].*?Ae(\d+)`
at one position; returns (URL capture, sequence-number capture).  The lazy
`.*?` groups find the earliest following `URL[` and `Ae<digit>`. -/
def seSendAt (s : List Char) : Option (String × String) := do
  let r1 ← stripLit "SE_SEND(TimeOutSecs ".toList s
  let (_, r2) ← run1 isDigitChar r1
  let r3 ← stripLit ")".toList r2
  let (url, r4) ← searchLeft
    (fun t => do
      let t1 ← stripLit "URL[".toList t
      let (u, t2) ← run1 (fun c => c ≠ ']') t1
      let t3 ← stripLit "]".toList t2
      some (String.mk u, t3))
    r3
  let seq ← aeSearch r4
  some (url, seq)

def seSendSearch (msg : List Char) : Option (String × String) :=
  searchLeft seSendAt msg

/-- `PATTERNS["se_recv"] = SE_RECV\(([0-9.]+) secs\).*?Ae(\d+)` at one
position; returns (elapsed-seconds capture, sequence-number capture). -/
def seRecvAt (s : List Char) : Option (String × String) := do
  let r1 ← stripLit "SE_RECV(".toList s
  let (num, r2) ← run1 (fun c => isDigitChar c || c = '.') r1
  let r3 ← stripLit " secs)".toList r2
  let seq ← aeSearch r3
  some (String.mk num, seq)

def seRecvSearch (msg : List Char) : Option (String × String) :=
  searchLeft seRecvAt msg

/-- `SE_SEND_FIELD_PATTERNS["entry_method"] = BfE?C?(\w)` at one position:
after `Bf`, the optional `E` and `C` are consumed greedily but given back
when no word character remains for the capture group (Python backtracking
order: `EC·w`, then `E·w`, then `C·w`, then `·w`). -/
def bfEntryMethodAt (s : List Char) : Option String := do
  let r1 ← stripLit "Bf".toList s
  match r1 with
  | 'E' :: 'C' :: c :: _ =>
    if isWordChar c then some (String.mk [c]) else some "C"
  | 'E' :: 'C' :: [] => some "C"
  | 'E' :: c :: _ =>
    if isWordChar c then some (String.mk [c]) else some "E"
  | 'E' :: [] => some "E"
  | 'C' :: c :: _ =>
    if isWordChar c then some (String.mk [c]) else some "C"
  | 'C' :: [] => some "C"
  | c :: _ => if isWordChar c then some (String.mk [c]) else none
  | [] => none

def bfEntryMethodSearch (msg : List Char) : Option String :=
  searchLeft bfEntryMethodAt msg

/-- Python `float()` of a `[0-9.]+` capture, as an exact rational.  On a
capture with more than one dot `float()` would raise in the source; such
captures never arise from real messages and are mapped to 0 here. -/
def ratOfFloatChars (s : List Char) : ℚ :=
  let (ip, rest) := takeRun isDigitChar s
  match rest with
  | [] => (natOfDigits ip : ℚ)
  | '.' :: fr =>
    let (fp, rest2) := takeRun isDigitChar fr
    if rest2.isEmpty then
      (natOfDigits ip : ℚ) + (natOfDigits fp : ℚ) / (10 : ℚ) ^ fp.length
    else 0
  | _ => 0

/-! ### `segmentation/models.py` — `TransactionData` -/

/-- `TransactionData` dataclass with its field defaults. -/
structure TransactionData where
  start_line : Nat := 0
  end_line : Nat := 0
  start_time : Option ℚ := none
  end_time : Option ℚ := none
  entry_count : Nat := 0
  sequence_number : String := ""
  card_type : String := ""
  entry_method : String := ""
  pan_last4 : String := ""
  aid : String := ""
  app_label : String := ""
  tac_sequence : String := ""
  cvm_result : String := ""
  response_code : String := ""
  host_response_code : String := ""
  authorization_number : String := ""
  amount_cents : Nat := 0
  cashback_cents : Nat := 0
  host_url : String := ""
  host_latency_ms : ℚ := 0
  se_send_time : Option ℚ := none
  se_recv_time : Option ℚ := none
  tvr : String := ""
  is_quickchip : Bool := false
  is_fallback : Bool := false
  serial_error_count : Nat := 0
  state_sequence : List String := []
deriving DecidableEq, Repr

/-- `TransactionData.is_approved` property. -/
def is_approved (t : TransactionData) : Bool := t.response_code = "AA"

/-- `CARD_TYPE_MAP.get(val, val)`. -/
def cardTypeOf (val : String) : String :=
  if val = "DB" then "Debit"
  else if val = "VS" || val = "MC" || val = "AX" || val = "DS" then "Credit"
  else if val = "EF" then "EBT Food"
  else if val = "EC" then "EBT Cash"
  else val

/-! ### `segmentation/transaction_segmenter.py` — the segmenter -/

/-- `TransactionState` enumeration. -/
inductive TransactionState where
  | idle
  | in_progress
  | online_pending
  | completing
deriving DecidableEq, Repr

/-- `TransactionSegmenter` mutable state (`__init__` values as defaults). -/
structure SegmenterState where
  state : TransactionState := .idle
  current : Option TransactionData := none
  entries_buffer : List LogEntry := []
deriving DecidableEq, Repr

/-- `TransactionSegmenter._start_new`. -/
def startNew (entry : LogEntry) : SegmenterState :=
  { state := .in_progress
    current := some { start_line := entry.line_number, start_time := some entry.timestamp }
    entries_buffer := [entry] }

/-- `TransactionSegmenter._finalize_current` with a non-`None` entry. -/
def finalizeTxn (txn : TransactionData) (entry : LogEntry) : TransactionData :=
  { txn with end_line := entry.line_number, end_time := some entry.timestamp }

/-! `TransactionSegmenter._extract_fields` as the source-ordered chain of
per-entry field extractors, one named step per pattern. -/

/-- The `card_entry` step: `CardEntryType = (\w)` on category `DLL-EX` or
`TCP/IP` overwrites `entry_method`. -/
def efCardEntry (txn : TransactionData) (entry : LogEntry) : TransactionData :=
  match cardEntrySearch entry.message.toList with
  | some v =>
    if entry.category = "DLL-EX" || entry.category = "TCP/IP" then
      { txn with entry_method := v }
    else txn
  | none => txn

/-- The `aid` step: `AppID >(\w+)<` overwrites `aid`. -/
def efAid (txn : TransactionData) (entry : LogEntry) : TransactionData :=
  match aidSearch entry.message.toList with
  | some v => { txn with aid := v }
  | none => txn

/-- The `app_label` step: `AppLabel >([^<]+)<` overwrites `app_label`
(stripped). -/
def efAppLabel (txn : TransactionData) (entry : LogEntry) : TransactionData :=
  match appLabelSearch entry.message.toList with
  | some v => { txn with app_label := String.mk (pstrip v.toList) }
  | none => txn

/-- The `cvm_result` step: `CVMR >(\w+)<` overwrites `cvm_result` unless the
capture is the pre-PIN placeholder `3F0000`. -/
def efCvmResult (txn : TransactionData) (entry : LogEntry) : TransactionData :=
  match cvmResultSearch entry.message.toList with
  | some v => if v ≠ "3F0000" then { txn with cvm_result := v } else txn
  | none => txn

/-- The `tvr` step: `tvr=(\w+),` overwrites `tvr`. -/
def efTvr (txn : TransactionData) (entry : LogEntry) : TransactionData :=
  match tvrSearch entry.message.toList with
  | some v => { txn with tvr := v }
  | none => txn

/-- The `cmd_sequence` step: overwrites `tac_sequence` (stripped). -/
def efCmdSequence (txn : TransactionData) (entry : LogEntry) : TransactionData :=
  match cmdSequenceSearch entry.message.toList with
  | some v => { txn with tac_sequence := String.mk (pstrip v.toList) }
  | none => txn

/-- The `quickchip` step: `IsQuickChip=(\w)` overwrites `is_quickchip`. -/
def efQuickchip (txn : TransactionData) (entry : LogEntry) : TransactionData :=
  match quickchipSearch entry.message.toList with
  | some v => { txn with is_quickchip := v = "Y" }
  | none => txn

/-- The `auth_number` step: `AuthorizationNumber = (\w+)` on category
`TCP/IP` overwrites `authorization_number`. -/
def efAuthNumber (txn : TransactionData) (entry : LogEntry) : TransactionData :=
  match authNumberSearch entry.message.toList with
  | some v =>
    if entry.category = "TCP/IP" then { txn with authorization_number := v }
    else txn
  | none => txn

/-- The `tender_type` step: the tender name's substring chain overwrites
`card_type`. -/
def efTenderType (txn : TransactionData) (entry : LogEntry) : TransactionData :=
  match tenderTypeSearch entry.message.toList with
  | some v =>
    let tender_name := String.mk (pstrip v.toList)
    if containsSub tender_name.toList "Debit".toList then
      { txn with card_type := "Debit" }
    else if containsSub tender_name.toList "Credit".toList then
      { txn with card_type := "Credit" }
    else if containsSub tender_name.toList "EBT Food".toList
        || containsSub tender_name.toList "Food Stamp".toList then
      { txn with card_type := "EBT Food" }
    else if containsSub tender_name.toList "EBT Cash".toList then
      { txn with card_type := "EBT Cash" }
    else txn
  | none => txn

/-- `TransactionSegmenter._extract_fields`: the per-entry field extractors,
applied in source order.  Every setter here overwrites unconditionally on a
match, except the CVM extractor's rejection of the `3F0000` pre-PIN
placeholder and the category conditions on `card_entry` / `auth_number`. -/
def extract_fields (txn0 : TransactionData) (entry : LogEntry) : TransactionData :=
  let txn1 := efCardEntry txn0 entry
  let txn2 := efAid txn1 entry
  let txn3 := efAppLabel txn2 entry
  let txn4 := efCvmResult txn3 entry
  let txn5 := efTvr txn4 entry
  let txn6 := efCmdSequence txn5 entry
  let txn7 := efQuickchip txn6 entry
  let txn8 := efAuthNumber txn7 entry
  efTenderType txn8 entry

/-- `TransactionSegmenter._extract_se_send_fields`: the
`SE_SEND_FIELD_PATTERNS` loop in dict order.  The `company`, `store`,
`processing_code` and `seq_number` patterns are searched by the source but
have no setter branch, so they are omitted. -/
def extract_se_send_fields (txn0 : TransactionData) (msg : List Char) : TransactionData :=
  let txn1 :=
    match searchLeft (litCapAt "Da".toList isDigitChar) msg with
    | some v =>
      if txn0.amount_cents = 0 then { txn0 with amount_cents := natOfDigits v.toList }
      else txn0
    | none => txn0
  let txn2 :=
    match searchLeft (litCapAt "Dc".toList isDigitChar) msg with
    | some v => { txn1 with cashback_cents := natOfDigits v.toList }
    | none => txn1
  let txn3 :=
    match searchLeft (litWord2At "Bn".toList) msg with
    | some v => if txn2.card_type = "" then { txn2 with card_type := cardTypeOf v } else txn2
    | none => txn2
  let txn4 :=
    match searchLeft (litCapAt "Bp".toList isDigitChar) msg with
    | some v => { txn3 with pan_last4 := v }
    | none => txn3
  let txn5 :=
    match bfEntryMethodSearch msg with
    | some v => if txn4.entry_method = "" then { txn4 with entry_method := v } else txn4
    | none => txn4
  let txn6 :=
    match searchLeft (litCapAt "84-".toList isWordChar) msg with
    | some v => if txn5.aid = "" then { txn5 with aid := v } else txn5
    | none => txn5
  let txn7 :=
    match searchLeft (litCapAt "50-".toList (fun c => c ≠ '|')) msg with
    | some v =>
      if txn6.app_label = "" then { txn6 with app_label := String.mk (pstrip v.toList) }
      else txn6
    | none => txn6
  let txn8 :=
    match searchLeft (litCapAt "95-".toList isWordChar) msg with
    | some v => if txn7.tvr = "" then { txn7 with tvr := v } else txn7
    | none => txn7
  let txn9 :=
    match searchLeft (litCapAt "9F34-".toList isWordChar) msg with
    | some v => if v ≠ "3F0000" then { txn8 with cvm_result := v } else txn8
    | none => txn8
  match searchLeft (litCapAt "Gh".toList (fun c => c ≠ '[')) msg with
  | some v =>
    if txn9.tac_sequence = "" then { txn9 with tac_sequence := String.mk (pstrip v.toList) }
    else txn9
  | none => txn9

/-- `TransactionSegmenter._extract_se_recv_fields`: the
`SE_RECV_FIELD_PATTERNS` loop in dict order.  The `approved_flag` and
`response_text` patterns are searched but have no setter branch. -/
def extract_se_recv_fields (txn0 : TransactionData) (msg : List Char) : TransactionData :=
  let txn1 :=
    match searchLeft (litWord2At "Af".toList) msg with
    | some v =>
      if v = "00" then { txn0 with response_code := "AA" }
      else if v = "05" || v = "14" || v = "51" then { txn0 with response_code := "DD" }
      else txn0
    | none => txn0
  let txn2 :=
    match searchLeft (litCapAt "Ag".toList isWordChar) msg with
    | some v => { txn1 with authorization_number := String.mk (pstrip v.toList) }
    | none => txn1
  match searchLeft (litDigits3At "Mb".toList) msg with
  | some v => { txn2 with host_response_code := v }
  | none => txn2

/-- The host-exchange steps of `TransactionSegmenter._process_entry`: the
`SE_SEND` branch (state → `online_pending`, `se_send_time`, `host_url`,
`sequence_number`, then `_extract_se_send_fields`) followed by the `SE_RECV`
branch (state → `completing`, `se_recv_time`, `host_latency_ms` from the
elapsed-seconds capture × 1000, then `_extract_se_recv_fields`), each only
on category `SVREPS`. -/
def hostExchangeSteps (st : TransactionState) (txn : TransactionData)
    (entry : LogEntry) (msg : List Char) : TransactionState × TransactionData :=
  let (st1, txn1) :=
    match seSendSearch msg with
    | some (url, seq) =>
      if entry.category = "SVREPS" then
        (TransactionState.online_pending,
         extract_se_send_fields
           { txn with
               se_send_time := some entry.timestamp
               host_url := url
               sequence_number := seq }
           msg)
      else (st, txn)
    | none => (st, txn)
  match seRecvSearch msg with
  | some (latency, _) =>
    if entry.category = "SVREPS" then
      (TransactionState.completing,
       extract_se_recv_fields
         { txn1 with
             se_recv_time := some entry.timestamp
             host_latency_ms := ratOfFloatChars latency.toList * 1000 }
         msg)
    else (st1, txn1)
  | none => (st1, txn1)

/-- The TCP/IP response-code steps of `_process_entry`: `response_code` only
when still unset, `host_response_code` unconditionally. -/
def responseSteps (txn : TransactionData) (entry : LogEntry) (msg : List Char) :
    TransactionData :=
  let txn1 :=
    match responseCodeSearch msg with
    | some v =>
      if entry.category = "TCP/IP" && txn.response_code = "" then
        { txn with response_code := v }
      else txn
    | none => txn
  match hostResponseSearch msg with
  | some v =>
    if entry.category = "TCP/IP" then { txn1 with host_response_code := v }
    else txn1
  | none => txn1

/-- The trailing steps of `_process_entry` reached when no end signal fired:
the serial-ACK-failure counter and the SCAT state-sequence log. -/
def tailSteps (txn : TransactionData) (msg : List Char) : TransactionData :=
  let txn1 :=
    if containsSub msg "****ERROR: SendMsgWaitAck3Tries failed".toList then
      { txn with serial_error_count := txn.serial_error_count + 1 }
    else txn
  match scatStateWordSearch msg with
  | some v => { txn1 with state_sequence := txn1.state_sequence ++ [String.mk (pstrip v.toList)] }
  | none => txn1

/-- `TransactionSegmenter._process_entry`: returns the new segmenter state
and the completed transaction this entry closed, if any. -/
def process_txn_entry (s : SegmenterState) (entry : LogEntry) :
    SegmenterState × Option TransactionData :=
  let msg := entry.message.toList
  if containsSub msg "MTX_POS_BeginOrder".toList then
    match s.current with
    | some txn =>
      if txn.start_time.isSome then (startNew entry, some (finalizeTxn txn entry))
      else (startNew entry, none)
    | none => (startNew entry, none)
  else
    let s1 :=
      if s.state = TransactionState.idle then
        if (tenderTypeSetSearch msg).isSome && entry.category = "DLL-EX" then
          startNew entry
        else s
      else s
    match s1.current with
    | none => (s1, none)
    | some txn0 =>
      let buffer2 := s1.entries_buffer ++ [entry]
      let txn1 := { txn0 with entry_count := txn0.entry_count + 1 }
      let txn2 := extract_fields txn1 entry
      let (st3, txn3) := hostExchangeSteps s1.state txn2 entry msg
      let txn4 := responseSteps txn3 entry msg
      if containsSub msg "MTX_POS_EndOrder".toList then
        ({ state := .idle, current := none, entries_buffer := [] },
         some (finalizeTxn txn4 entry))
      else if containsSub msg "Reset_Clear END".toList && txn4.response_code ≠ "" then
        ({ state := .idle, current := none, entries_buffer := [] },
         some (finalizeTxn txn4 entry))
      else
        ({ state := st3, current := some (tailSteps txn4 msg), entries_buffer := buffer2 },
         none)

/-- The loop of `TransactionSegmenter.process_entries`: yielded transactions
in order, with the final segmenter state. -/
def segGo (s : SegmenterState) : List LogEntry → List TransactionData × SegmenterState
  | [] => ([], s)
  | e :: es =>
    let (s2, out) := process_txn_entry s e
    let (outs, sF) := segGo s2 es
    (match out with
     | some t => t :: outs
     | none => outs, sF)

/-- `TransactionSegmenter.process_entries` from a fresh segmenter, with the
end-of-stream flush of a still-open transaction that has a start time
(finalized against the last buffered entry when one exists). -/
def process_transactions (entries : List LogEntry) : List TransactionData :=
  let (outs, sF) := segGo {} entries
  match sF.current with
  | some txn =>
    if txn.start_time.isSome then
      let txnF :=
        match sF.entries_buffer.getLast? with
        | some lastE => finalizeTxn txn lastE
        | none => txn
      if txnF.start_time.isSome then outs ++ [txnF] else outs
    else outs
  | none => outs

/-! ### The ingestion pipeline (`FileReader.read_entries`) -/

/-- `FileReader.parse_lines`: parse each raw line with 1-based line numbers,
dropping unrecognized lines; a `strptime` failure aborts with the source's
`ValueError`. -/
def parseAll (source_file : String) : Nat → List String → Except Unit (List Parsed)
  | _, [] => .ok []
  | n, l :: ls =>
    match parse_line source_file l n with
    | .error e => .error e
    | .ok none => parseAll source_file (n + 1) ls
    | .ok (some p) =>
      match parseAll source_file (n + 1) ls with
      | .error e => .error e
      | .ok ps => .ok (p :: ps)

/-- `FileReader.read_entries` with repeat expansion (the default), feeding
`TransactionSegmenter.process_entries`. -/
def pipelineTransactions (lines : List String) : Except Unit (List TransactionData) :=
  match parseAll "" 1 lines with
  | .error e => .error e
  | .ok ps => .ok (process_transactions (expandProcess 20 ps))

/-! ### `segmentation/health_segmenter.py` -/

/-- `HealthCheckData` dataclass with its field defaults. -/
structure HealthCheckData where
  start_line : Nat := 0
  end_line : Nat := 0
  start_time : Option ℚ := none
  end_time : Option ℚ := none
  check_type : String := ""
  target_host : String := ""
  success : Bool := false
  error_code : String := ""
  http_status : String := ""
  latency_ms : ℚ := 0
deriving DecidableEq, Repr

/-- `EXCHANGE_INFO_SEND = ServerEPS_LSExchangeInfo Company\[(\d+)\].*?Addr\[([^\]]+)\]`
at one position; returns (company, address). -/
def exchangeInfoSendAt (s : List Char) : Option (String × String) := do
  let r1 ← stripLit "ServerEPS_LSExchangeInfo Company[".toList s
  let (comp, r2) ← run1 isDigitChar r1
  let r3 ← stripLit "]".toList r2
  let addr ← searchLeft
    (litCapTrailAt "Addr[".toList (fun c => c ≠ ']') "]".toList) r3
  some (String.mk comp, addr)

def exchangeInfoSendSearch (msg : List Char) : Option (String × String) :=
  searchLeft exchangeInfoSendAt msg

/-- `EXCHANGE_INFO_RESULT = after ServerEPS_LSExchangeInfo ErrorCode = (\d+) ErrorStr=(.*)`
at one position; the `(.*)` group captures the whole remainder. -/
def exchangeInfoResultAt (s : List Char) : Option (String × String) := do
  let r1 ← stripLit "after ServerEPS_LSExchangeInfo ErrorCode = ".toList s
  let (code, r2) ← run1 isDigitChar r1
  let r3 ← stripLit " ErrorStr=".toList r2
  some (String.mk code, String.mk r3)

def exchangeInfoResultSearch (msg : List Char) : Option (String × String) :=
  searchLeft exchangeInfoResultAt msg

/-- `MONITORING_RESULT = after ServerEPS_LaneServiceStatusUpload ErrorCode \((\d+)\) ErrorStr\(([^)]*)\)`
at one position; the second group may be empty. -/
def monitoringResultAt (s : List Char) : Option (String × String) := do
  let r1 ← stripLit "after ServerEPS_LaneServiceStatusUpload ErrorCode (".toList s
  let (code, r2) ← run1 isDigitChar r1
  let r3 ← stripLit ") ErrorStr(".toList r2
  let (estr, r4) := takeRun (fun c => c ≠ ')') r3
  let _ ← stripLit ")".toList r4
  some (String.mk code, String.mk estr)

def monitoringResultSearch (msg : List Char) : Option (String × String) :=
  searchLeft monitoringResultAt msg

/-- `LOGIN_RESULT = Login result = (\w+)`. -/
def loginResultSearch (msg : List Char) : Option String :=
  searchLeft (litCapAt "Login result = ".toList isWordChar) msg

/-- `HTTP_ERROR = HTTP/1\.\d (\d{3})` at one position. -/
def httpErrorAt (s : List Char) : Option String := do
  let r1 ← stripLit "HTTP/1.".toList s
  match r1 with
  | c :: r2 =>
    if isDigitChar c then litDigits3At " ".toList r2
    else none
  | [] => none

/-- The `http_status` extraction applied to an error string: the HTTP
pattern's capture, overridden by `Socket_<n>` when the socket pattern also
matches; empty when neither does. -/
def httpSocketStatus (errStr : List Char) : String :=
  let base :=
    match searchLeft httpErrorAt errStr with
    | some v => v
    | none => ""
  match searchLeft (litCapAt "Socket Error # ".toList isDigitChar) errStr with
  | some v => "Socket_" ++ v
  | none => base

/-- The `MonitoringStatus` / `Login` single-line branches of
`HealthSegmenter.process_entries`, reached when neither ExchangeInfo branch
consumed the entry; the open ExchangeInfo record (if any) is untouched. -/
def monitoringLoginStep (entry : LogEntry) (msg : List Char) : List HealthCheckData :=
  match monitoringResultSearch msg with
  | some (code, estr) =>
    [{ start_line := entry.line_number
       start_time := some entry.timestamp
       end_line := entry.line_number
       end_time := some entry.timestamp
       check_type := "MonitoringStatus"
       error_code := code
       success := code = "0"
       http_status := httpSocketStatus estr.toList }]
  | none =>
    match loginResultSearch msg with
    | some v =>
      [{ start_line := entry.line_number
         start_time := some entry.timestamp
         end_line := entry.line_number
         end_time := some entry.timestamp
         check_type := "Login"
         success := v = "lrNothingNew" || v = "lrWaitForFiles"
         error_code := v }]
    | none => []

/-- One loop iteration of `HealthSegmenter.process_entries`: the open
ExchangeInfo record after this entry, and the records yielded for it.
A second ExchangeInfo start marker yields the still-open record before
opening a new one. -/
def health_step (current : Option HealthCheckData) (entry : LogEntry) :
    Option HealthCheckData × List HealthCheckData :=
  if entry.category ≠ "SVREPS" then (current, [])
  else
    let msg := entry.message.toList
    match exchangeInfoSendSearch msg with
    | some (_, addr) =>
      (some
        { start_line := entry.line_number
          start_time := some entry.timestamp
          check_type := "ExchangeInfo"
          target_host := addr },
       match current with
       | some c => [c]
       | none => [])
    | none =>
      match exchangeInfoResultSearch msg, current with
      | some (code, estr), some c =>
        if c.check_type = "ExchangeInfo" then
          let error_str := pstrip estr.toList
          let c1 :=
            { c with
                end_line := entry.line_number
                end_time := some entry.timestamp
                error_code := code
                success := code = "0"
                latency_ms :=
                  match c.start_time with
                  | some st => (entry.timestamp - st) * 1000
                  | none => c.latency_ms
                http_status :=
                  match httpSocketStatus error_str with
                  | "" => c.http_status
                  | v => v }
          (none, [c1])
        else (current, monitoringLoginStep entry msg)
      | _, _ => (current, monitoringLoginStep entry msg)

/-- The loop of `HealthSegmenter.process_entries` from a given open record. -/
def healthGo (current : Option HealthCheckData) :
    List LogEntry → List HealthCheckData
  | [] =>
    match current with
    | some c => [c]
    | none => []
  | e :: es =>
    let (current2, out) := health_step current e
    out ++ healthGo current2 es

/-- `HealthSegmenter.process_entries` over a whole entry stream, including
the end-of-stream flush of a still-open record. -/
def process_health (entries : List LogEntry) : List HealthCheckData :=
  healthGo none entries

/-! ### `ml/rules.py` — `_check_scat_dead` -/

/-- An issue produced by `RuleEngine._check_scat_dead`.  `time_range` and
the evidence f-string are modelled by the `dead_start`/`dead_end`/
`duration_sec` fields; `still_dead_at_end` distinguishes the
`(end of file)` branch. -/
structure ScatDeadIssue where
  confidence : ℚ
  dead_start : ℚ
  dead_end : ℚ
  duration_sec : ℚ
  still_dead_at_end : Bool
deriving DecidableEq, Repr

/-- `RuleEngine._outside_window`. -/
def outsideWindow (event_start event_end : ℚ) (ws we : Option ℚ) : Bool :=
  match ws, we with
  | none, none => false
  | _, _ =>
    (match ws with
     | some w => event_end < w
     | none => false) ||
    (match we with
     | some w => event_start > w
     | none => false)

/-- The row loop of `_check_scat_dead`: scans `(timestamp, alive_status)`
rows carrying `dead_start`; a non-zero status closing a zero run emits an
issue when the run lasted strictly more than 60 seconds and overlaps the
window; returns the issues and the final `dead_start`. -/
def scatScan (ws we : Option ℚ) :
    List (ℚ × Nat) → Option ℚ → List ScatDeadIssue × Option ℚ
  | [], ds => ([], ds)
  | (ts, status) :: rest, none =>
    scatScan ws we rest (if status = 0 then some ts else none)
  | (ts, status) :: rest, some d =>
    if status ≠ 0 then
      let duration_sec := ts - d
      let here :=
        if duration_sec > 60 then
          if !outsideWindow d ts ws we then
            [{ confidence := min 0.95 (0.5 + duration_sec / 3600)
               dead_start := d
               dead_end := ts
               duration_sec
               still_dead_at_end := false }]
          else []
        else []
      let (issues, fin) := scatScan ws we rest none
      (here ++ issues, fin)
    else scatScan ws we rest (some d)

/-- `RuleEngine._check_scat_dead` over the ordered `(timestamp, alive_status)`
timeline rows: closed dead runs from the scan, then the still-dead-at-end
branch (fixed confidence 0.9) when `dead_start` survives the scan, its
duration measured to the last row's timestamp. -/
def check_scat_dead (rows : List (ℚ × Nat)) (ws we : Option ℚ) :
    List ScatDeadIssue :=
  if rows.isEmpty then []
  else
    let (issues, dead_start) := scatScan ws we rows none
    match dead_start, rows.getLast? with
    | some d, some (last_ts, _) =>
      let duration_sec := last_ts - d
      if duration_sec > 60 then
        if !outsideWindow d last_ts ws we then
          issues ++
            [{ confidence := 0.9
               dead_start := d
               dead_end := last_ts
               duration_sec
               still_dead_at_end := true }]
        else issues
      else issues
    | _, _ => issues

/-- One step of `SCATTimelineRepo.insert_batch`'s dict-based deduplication:
`deduped[ts] = status` keeps one row per timestamp at the timestamp's
first-occurrence position (Python dict insertion order), overwriting its
status with the latest one seen. -/
def dictInsert (acc : List (ℚ × Nat)) (r : ℚ × Nat) : List (ℚ × Nat) :=
  if acc.any (fun p => p.1 = r.1) then
    acc.map (fun p => if p.1 = r.1 then (p.1, r.2) else p)
  else acc ++ [r]

/-- `SCATTimelineRepo.insert_batch`'s per-timestamp deduplication of the
`(timestamp, alive_status)` rows, last status per timestamp winning. -/
def dedupByTs (rows : List (ℚ × Nat)) : List (ℚ × Nat) :=
  rows.foldl dictInsert []

/-- Insert a row into a timestamp-ascending list, keeping it ascending. -/
def insertByTs (r : ℚ × Nat) : List (ℚ × Nat) → List (ℚ × Nat)
  | [] => [r]
  | q :: qs => if q.1 ≤ r.1 then q :: insertByTs r qs else r :: q :: qs

/-- The query's `ORDER BY timestamp`, as an insertion sort on the timestamp
column.  Tie order is immaterial: the stored rows carry pairwise-distinct
timestamps after `dedupByTs` (the table's primary key is
`(file_id, timestamp)`). -/
def orderByTs : List (ℚ × Nat) → List (ℚ × Nat)
  | [] => []
  | r :: rs => insertByTs r (orderByTs rs)

/-- The `(timestamp, alive_status)` rows the rule engine reads back for a
file: the machine's recorded alive-status transitions, deduplicated per
timestamp at insert time (`SCATTimelineRepo.insert_batch`), then returned
by the `SELECT timestamp, alive_status ... ORDER BY timestamp` query of
`RuleEngine._check_scat_dead`. -/
def timelineRows (m : SCATStateMachine) : List (ℚ × Nat) :=
  orderByTs (dedupByTs (m.alive_history.map fun r => (r.1, r.2.1)))

/-! ### `ml/rules.py` — `_check_card_read_intermittent` -/

/-- The columns of one row of the detector's transaction query that the
detector reads: `e.start_time`, `e.duration_ms`, `t.is_approved`,
`t.card_type`, `t.host_latency_ms` (the queried `e.end_time`,
`t.amount_cents`, `t.entry_method` columns are never read).  `duration_ms`
and `host_latency_ms` are nullable columns. -/
structure TxnRow where
  start_time : ℚ
  duration_ms : Option ℚ
  is_approved : Bool
  card_type : String
  host_latency_ms : Option ℚ
deriving DecidableEq, Repr

/-- The `is_noread` test: not approved, no card type (SQL `NULL` and the
dataclass default `""` are both falsy in the source's `not r[4]`), and no
host latency recorded (`None` or `0`). -/
def isNoRead (r : TxnRow) : Bool :=
  !r.is_approved && r.card_type = "" &&
  (match r.host_latency_ms with
   | none => true
   | some x => x = 0)

/-- A no-read lasting under 15 000 ms (`MIN_WAIT_MS`) with a known duration:
counted as a quick cancel, excluded from `no_reads`. -/
def isQuickCancel (r : TxnRow) : Bool :=
  isNoRead r &&
  (match r.duration_ms with
   | some d => d < 15000
   | none => false)

/-- The `is_real_noread` test of the burst loop: a no-read whose duration is
unknown or at least `MIN_WAIT_MS`. -/
def isRealNoRead (r : TxnRow) : Bool :=
  isNoRead r &&
  (match r.duration_ms with
   | none => true
   | some d => 15000 ≤ d)

/-- The burst loop of `_check_card_read_intermittent`: `max_burst` is only
updated when a run of consecutive real no-reads ends (and once more after
the loop). -/
def maxBurst (rows : List TxnRow) : Nat :=
  let (mx, cur) := rows.foldl
    (fun (acc : Nat × Nat) r =>
      if isRealNoRead r then (acc.1, acc.2 + 1)
      else (if acc.2 > acc.1 then acc.2 else acc.1, 0))
    (0, 0)
  if cur > mx then cur else mx

/-- An issue produced by `_check_card_read_intermittent`.  Every number the
evidence f-strings interpolate is carried as a field; the `*_noted` booleans
record which conditional evidence parts were appended. -/
structure CardReadIssue where
  confidence : ℚ
  acute : Bool
  no_read_count : Nat
  total : Nat
  quick_cancels : Nat
  max_burst : Nat
  no_read_pct : ℚ
  avg_wait_s : ℚ
  total_wait_s : ℚ
  timeout_pct : ℚ
  quick_cancel_noted : Bool
  burst_noted : Bool
  timeout_noted : Bool
  morning_noted : Bool
  tr_start : ℚ
  tr_end : ℚ
deriving DecidableEq, Repr

/-- `RuleEngine._check_card_read_intermittent` over the windowed transaction
rows (the SQL already applied the time window and the `ORDER BY
e.start_time`) and the `_get_hourly_noread_rate` result `(hour,
noread_count, total_count)` rows that the chronic branch queries. -/
def check_card_read_intermittent (rows : List TxnRow)
    (hourly : List (Nat × Nat × Nat)) : List CardReadIssue :=
  if rows.length < 5 then []
  else
    let total := rows.length
    let no_reads := rows.filter isRealNoRead
    let quick_cancels := (rows.filter isQuickCancel).length
    let no_read_count := no_reads.length
    if no_read_count = 0 then []
    else
      let no_read_pct : ℚ := no_read_count * 100 / total
      let max_burst := maxBurst rows
      let wait_times := no_reads.filterMap fun r =>
        match r.duration_ms with
        | some d => if d > 0 then some d else none
        | none => none
      let avg_wait_s : ℚ :=
        if wait_times.isEmpty then 0
        else wait_times.sum / wait_times.length / 1000
      let total_wait_s : ℚ := if wait_times.isEmpty then 0 else wait_times.sum / 1000
      let timeout_zone := (no_reads.filter fun r =>
        match r.duration_ms with
        | some d => !(d = 0) && 30000 ≤ d && d ≤ 55000
        | none => false).length
      let timeout_pct : ℚ :=
        if no_read_count = 0 then 0 else timeout_zone * 100 / no_read_count
      let tr_start :=
        match no_reads.head? with
        | some r => r.start_time
        | none => 0
      let tr_end :=
        match no_reads.getLast? with
        | some r => r.start_time
        | none => 0
      if max_burst ≥ 3 || no_read_pct ≥ 30 then
        [{ confidence := min 0.95 (0.7 + max_burst * 0.05)
           acute := true
           no_read_count, total, quick_cancels, max_burst
           no_read_pct, avg_wait_s, total_wait_s, timeout_pct
           quick_cancel_noted := quick_cancels > 0
           burst_noted := max_burst ≥ 3
           timeout_noted := timeout_pct > 20
           morning_noted := false
           tr_start, tr_end }]
      else if no_read_pct ≥ 15 && total ≥ 10 then
        let morning_rate := (hourly.filter fun h => h.1 = 7 || h.1 = 8).foldl
          (fun (acc : Nat) h => acc + h.2.1) 0
        let morning_total := (hourly.filter fun h => h.1 = 7 || h.1 = 8).foldl
          (fun (acc : Nat) h => acc + h.2.2) 0
        let morning_noted :=
          if morning_total > 0 then
            decide (((morning_rate : ℚ) * 100 / (morning_total : ℚ)) > no_read_pct + 5)
          else false
        [{ confidence := min 0.85 (0.5 + no_read_pct / 100)
           acute := false
           no_read_count, total, quick_cancels, max_burst
           no_read_pct, avg_wait_s, total_wait_s, timeout_pct
           quick_cancel_noted := quick_cancels > 0
           burst_noted := false
           timeout_noted := timeout_pct > 20
           morning_noted
           tr_start, tr_end }]
      else []

/-! ### Concrete scenarios referenced by the verification theorems -/

/-- The end-to-end input of the spec's testable-properties section. -/
def e2eLines : List String :=
  ["11/30/25 08:06:19.279 DLL-EX MTX_POS_BeginOrder",
   "11/30/25 08:07:31.399 SVREPS SE_SEND(TimeOutSecs 30) [60 bytes] URL[https://trn2.servereps.com/sCAT2] Aa145714 Ab1 Ae9218 BnDB Da5000 Bp1234 BfE",
   "11/30/25 08:07:33.149 SVREPS SE_RECV(1.743 secs) [250 bytes] Ae9218 Af00 Ag123456",
   "11/30/25 08:08:40.447 DLL-EX MTX_POS_EndOrder"]

/-- A line whose shape matches `LINE_PATTERN` but whose timestamp digits
form no valid datetime (month 99). -/
def badTimestampLine : String := "99/99/99 99:99:99.999 SERIAL x"

/-- A transaction stream carrying two successive AID markers with distinct
values. -/
def aidTwiceEntries : List LogEntry :=
  [{ line_number := 1, timestamp := 0, category := "DLL-EX",
     message := "MTX_POS_BeginOrder" },
   { line_number := 2, timestamp := 1, category := "TCP/IP",
     message := "AppID >A0000000031010<" },
   { line_number := 3, timestamp := 2, category := "TCP/IP",
     message := "AppID >A0000000041010<" },
   { line_number := 4, timestamp := 3, category := "DLL-EX",
     message := "MTX_POS_EndOrder" }]

/-- Five entries whose messages carry alive statuses 3, 3, 0, 0, 3. -/
def aliveSeqEntries (t0 t1 t2 t3 t4 : ℚ) : List LogEntry :=
  [{ line_number := 1, timestamp := t0, category := "DLL-EX",
     message := "SCATAliveInt = 3 (ReportScatAlive)" },
   { line_number := 2, timestamp := t1, category := "DLL-EX",
     message := "SCATAliveInt = 3 (ReportScatAlive)" },
   { line_number := 3, timestamp := t2, category := "DLL-EX",
     message := "SCATAliveInt = 0 (ReportScatDead)" },
   { line_number := 4, timestamp := t3, category := "DLL-EX",
     message := "SCATAliveInt = 0 (ReportScatDead)" },
   { line_number := 5, timestamp := t4, category := "DLL-EX",
     message := "SCATAliveInt = 3 (ReportScatAlive)" }]

/-- An alive-then-dead stream that never recovers. -/
def neverRecoverEntries : List LogEntry :=
  [{ line_number := 1, timestamp := 0, category := "DLL-EX",
     message := "SCATAliveInt = 3 (ReportScatAlive)" },
   { line_number := 2, timestamp := 100, category := "DLL-EX",
     message := "SCATAliveInt = 0 (ReportScatDead)" }]

/-- A never-recovering stream whose timestamps are out of order (the parser
tolerates non-monotonic timestamps, e.g. across a clock reset): dead
reported at t = 300 first, then alive at t = 100, then dead at t = 200. -/
def nonMonotonicEntries : List LogEntry :=
  [{ line_number := 1, timestamp := 300, category := "DLL-EX",
     message := "SCATAliveInt = 0 (ReportScatDead)" },
   { line_number := 2, timestamp := 100, category := "DLL-EX",
     message := "SCATAliveInt = 3 (ReportScatAlive)" },
   { line_number := 3, timestamp := 200, category := "DLL-EX",
     message := "SCATAliveInt = 0 (ReportScatDead)" }]

/-- Two ExchangeInfo outbound markers with no result line between them and
none after. -/
def twoExchangeStarts : List LogEntry :=
  [{ line_number := 1, timestamp := 0, category := "SVREPS",
     message := "ServerEPS_LSExchangeInfo Company[145714] Store[1] Addr[https://a.example.com/x]" },
   { line_number := 5, timestamp := 9, category := "SVREPS",
     message := "ServerEPS_LSExchangeInfo Company[145714] Store[1] Addr[https://b.example.com/y]" }]

/-- A single buffered serial entry for the expander scenarios. -/
def bufEntry1 : LogEntry :=
  { line_number := 1, timestamp := 0, category := "SERIAL", message := "m1" }

/-- A window transaction that read a card and was approved. -/
def goodRow (t : ℚ) : TxnRow :=
  { start_time := t, duration_ms := some 20000, is_approved := true,
    card_type := "Credit", host_latency_ms := some 500 }

/-- A no-read lasting 5 000 ms (a quick cancel). -/
def quickNoReadRow (t : ℚ) : TxnRow :=
  { start_time := t, duration_ms := some 5000, is_approved := false,
    card_type := "", host_latency_ms := none }

/-- A no-read lasting 45 000 ms. -/
def longNoReadRow (t : ℚ) : TxnRow :=
  { start_time := t, duration_ms := some 45000, is_approved := false,
    card_type := "", host_latency_ms := none }

/-- 20 transactions at one-minute intervals: 5 no-reads of which 2 are quick
cancels (positions 5 and 10) and 3 long ones are consecutive (positions
15–17). -/
def cardReadScenarioRows : List TxnRow :=
  [goodRow 0, goodRow 60, goodRow 120, goodRow 180, goodRow 240,
   quickNoReadRow 300, goodRow 360, goodRow 420, goodRow 480, goodRow 540,
   quickNoReadRow 600, goodRow 660, goodRow 720, goodRow 780, goodRow 840,
   longNoReadRow 900, longNoReadRow 960, longNoReadRow 1020,
   goodRow 1080, goodRow 1140]

/-! ## Field-preservation and setter lemmas for the per-entry extractors -/

@[simp] theorem efAid_keeps_entry_method (txn : TransactionData) (e : LogEntry) :
    (efAid txn e).entry_method = txn.entry_method := by
  unfold efAid; cases h : aidSearch e.message.toList <;> rfl

@[simp] theorem efAid_keeps_cvm_result (txn : TransactionData) (e : LogEntry) :
    (efAid txn e).cvm_result = txn.cvm_result := by
  unfold efAid; cases h : aidSearch e.message.toList <;> rfl

@[simp] theorem efCardEntry_keeps_cvm_result (txn : TransactionData) (e : LogEntry) :
    (efCardEntry txn e).cvm_result = txn.cvm_result := by
  unfold efCardEntry; cases h : cardEntrySearch e.message.toList
  · rfl
  · dsimp only; split_ifs <;> rfl

@[simp] theorem efAppLabel_keeps_entry_method (txn : TransactionData) (e : LogEntry) :
    (efAppLabel txn e).entry_method = txn.entry_method := by
  unfold efAppLabel; cases h : appLabelSearch e.message.toList <;> rfl

@[simp] theorem efAppLabel_keeps_aid (txn : TransactionData) (e : LogEntry) :
    (efAppLabel txn e).aid = txn.aid := by
  unfold efAppLabel; cases h : appLabelSearch e.message.toList <;> rfl

@[simp] theorem efAppLabel_keeps_cvm_result (txn : TransactionData) (e : LogEntry) :
    (efAppLabel txn e).cvm_result = txn.cvm_result := by
  unfold efAppLabel; cases h : appLabelSearch e.message.toList <;> rfl

@[simp] theorem efCvmResult_keeps_entry_method (txn : TransactionData) (e : LogEntry) :
    (efCvmResult txn e).entry_method = txn.entry_method := by
  unfold efCvmResult; cases h : cvmResultSearch e.message.toList
  · rfl
  · dsimp only; split_ifs <;> rfl

@[simp] theorem efCvmResult_keeps_aid (txn : TransactionData) (e : LogEntry) :
    (efCvmResult txn e).aid = txn.aid := by
  unfold efCvmResult; cases h : cvmResultSearch e.message.toList
  · rfl
  · dsimp only; split_ifs <;> rfl

@[simp] theorem efCvmResult_keeps_app_label (txn : TransactionData) (e : LogEntry) :
    (efCvmResult txn e).app_label = txn.app_label := by
  unfold efCvmResult; cases h : cvmResultSearch e.message.toList
  · rfl
  · dsimp only; split_ifs <;> rfl

@[simp] theorem efTvr_keeps_entry_method (txn : TransactionData) (e : LogEntry) :
    (efTvr txn e).entry_method = txn.entry_method := by
  unfold efTvr; cases h : tvrSearch e.message.toList <;> rfl

@[simp] theorem efTvr_keeps_aid (txn : TransactionData) (e : LogEntry) :
    (efTvr txn e).aid = txn.aid := by
  unfold efTvr; cases h : tvrSearch e.message.toList <;> rfl

@[simp] theorem efTvr_keeps_app_label (txn : TransactionData) (e : LogEntry) :
    (efTvr txn e).app_label = txn.app_label := by
  unfold efTvr; cases h : tvrSearch e.message.toList <;> rfl

@[simp] theorem efTvr_keeps_cvm_result (txn : TransactionData) (e : LogEntry) :
    (efTvr txn e).cvm_result = txn.cvm_result := by
  unfold efTvr; cases h : tvrSearch e.message.toList <;> rfl

@[simp] theorem efCmdSequence_keeps_entry_method (txn : TransactionData) (e : LogEntry) :
    (efCmdSequence txn e).entry_method = txn.entry_method := by
  unfold efCmdSequence; cases h : cmdSequenceSearch e.message.toList <;> rfl

@[simp] theorem efCmdSequence_keeps_aid (txn : TransactionData) (e : LogEntry) :
    (efCmdSequence txn e).aid = txn.aid := by
  unfold efCmdSequence; cases h : cmdSequenceSearch e.message.toList <;> rfl

@[simp] theorem efCmdSequence_keeps_app_label (txn : TransactionData) (e : LogEntry) :
    (efCmdSequence txn e).app_label = txn.app_label := by
  unfold efCmdSequence; cases h : cmdSequenceSearch e.message.toList <;> rfl

@[simp] theorem efCmdSequence_keeps_cvm_result (txn : TransactionData) (e : LogEntry) :
    (efCmdSequence txn e).cvm_result = txn.cvm_result := by
  unfold efCmdSequence; cases h : cmdSequenceSearch e.message.toList <;> rfl

@[simp] theorem efCmdSequence_keeps_tvr (txn : TransactionData) (e : LogEntry) :
    (efCmdSequence txn e).tvr = txn.tvr := by
  unfold efCmdSequence; cases h : cmdSequenceSearch e.message.toList <;> rfl

@[simp] theorem efQuickchip_keeps_entry_method (txn : TransactionData) (e : LogEntry) :
    (efQuickchip txn e).entry_method = txn.entry_method := by
  unfold efQuickchip; cases h : quickchipSearch e.message.toList <;> rfl

@[simp] theorem efQuickchip_keeps_aid (txn : TransactionData) (e : LogEntry) :
    (efQuickchip txn e).aid = txn.aid := by
  unfold efQuickchip; cases h : quickchipSearch e.message.toList <;> rfl

@[simp] theorem efQuickchip_keeps_app_label (txn : TransactionData) (e : LogEntry) :
    (efQuickchip txn e).app_label = txn.app_label := by
  unfold efQuickchip; cases h : quickchipSearch e.message.toList <;> rfl

@[simp] theorem efQuickchip_keeps_cvm_result (txn : TransactionData) (e : LogEntry) :
    (efQuickchip txn e).cvm_result = txn.cvm_result := by
  unfold efQuickchip; cases h : quickchipSearch e.message.toList <;> rfl

@[simp] theorem efQuickchip_keeps_tvr (txn : TransactionData) (e : LogEntry) :
    (efQuickchip txn e).tvr = txn.tvr := by
  unfold efQuickchip; cases h : quickchipSearch e.message.toList <;> rfl

@[simp] theorem efQuickchip_keeps_tac_sequence (txn : TransactionData) (e : LogEntry) :
    (efQuickchip txn e).tac_sequence = txn.tac_sequence := by
  unfold efQuickchip; cases h : quickchipSearch e.message.toList <;> rfl

@[simp] theorem efAuthNumber_keeps_entry_method (txn : TransactionData) (e : LogEntry) :
    (efAuthNumber txn e).entry_method = txn.entry_method := by
  unfold efAuthNumber; cases h : authNumberSearch e.message.toList
  · rfl
  · dsimp only; split_ifs <;> rfl

@[simp] theorem efAuthNumber_keeps_aid (txn : TransactionData) (e : LogEntry) :
    (efAuthNumber txn e).aid = txn.aid := by
  unfold efAuthNumber; cases h : authNumberSearch e.message.toList
  · rfl
  · dsimp only; split_ifs <;> rfl

@[simp] theorem efAuthNumber_keeps_app_label (txn : TransactionData) (e : LogEntry) :
    (efAuthNumber txn e).app_label = txn.app_label := by
  unfold efAuthNumber; cases h : authNumberSearch e.message.toList
  · rfl
  · dsimp only; split_ifs <;> rfl

@[simp] theorem efAuthNumber_keeps_cvm_result (txn : TransactionData) (e : LogEntry) :
    (efAuthNumber txn e).cvm_result = txn.cvm_result := by
  unfold efAuthNumber; cases h : authNumberSearch e.message.toList
  · rfl
  · dsimp only; split_ifs <;> rfl

@[simp] theorem efAuthNumber_keeps_tvr (txn : TransactionData) (e : LogEntry) :
    (efAuthNumber txn e).tvr = txn.tvr := by
  unfold efAuthNumber; cases h : authNumberSearch e.message.toList
  · rfl
  · dsimp only; split_ifs <;> rfl

@[simp] theorem efAuthNumber_keeps_tac_sequence (txn : TransactionData) (e : LogEntry) :
    (efAuthNumber txn e).tac_sequence = txn.tac_sequence := by
  unfold efAuthNumber; cases h : authNumberSearch e.message.toList
  · rfl
  · dsimp only; split_ifs <;> rfl

@[simp] theorem efTenderType_keeps_entry_method (txn : TransactionData) (e : LogEntry) :
    (efTenderType txn e).entry_method = txn.entry_method := by
  unfold efTenderType; cases h : tenderTypeSearch e.message.toList
  · rfl
  · dsimp only; split_ifs <;> rfl

@[simp] theorem efTenderType_keeps_aid (txn : TransactionData) (e : LogEntry) :
    (efTenderType txn e).aid = txn.aid := by
  unfold efTenderType; cases h : tenderTypeSearch e.message.toList
  · rfl
  · dsimp only; split_ifs <;> rfl

@[simp] theorem efTenderType_keeps_app_label (txn : TransactionData) (e : LogEntry) :
    (efTenderType txn e).app_label = txn.app_label := by
  unfold efTenderType; cases h : tenderTypeSearch e.message.toList
  · rfl
  · dsimp only; split_ifs <;> rfl

@[simp] theorem efTenderType_keeps_cvm_result (txn : TransactionData) (e : LogEntry) :
    (efTenderType txn e).cvm_result = txn.cvm_result := by
  unfold efTenderType; cases h : tenderTypeSearch e.message.toList
  · rfl
  · dsimp only; split_ifs <;> rfl

@[simp] theorem efTenderType_keeps_tvr (txn : TransactionData) (e : LogEntry) :
    (efTenderType txn e).tvr = txn.tvr := by
  unfold efTenderType; cases h : tenderTypeSearch e.message.toList
  · rfl
  · dsimp only; split_ifs <;> rfl

@[simp] theorem efTenderType_keeps_tac_sequence (txn : TransactionData) (e : LogEntry) :
    (efTenderType txn e).tac_sequence = txn.tac_sequence := by
  unfold efTenderType; cases h : tenderTypeSearch e.message.toList
  · rfl
  · dsimp only; split_ifs <;> rfl

@[simp] theorem efTenderType_keeps_authorization_number (txn : TransactionData) (e : LogEntry) :
    (efTenderType txn e).authorization_number = txn.authorization_number := by
  unfold efTenderType; cases h : tenderTypeSearch e.message.toList
  · rfl
  · dsimp only; split_ifs <;> rfl

theorem efCardEntry_sets (txn : TransactionData) (e : LogEntry) (v : String)
    (h : cardEntrySearch e.message.toList = some v)
    (hc : e.category = "DLL-EX" ∨ e.category = "TCP/IP") :
    (efCardEntry txn e).entry_method = v := by
  unfold efCardEntry; rw [h]; rcases hc with hc | hc <;> simp [hc]

theorem efAid_sets (txn : TransactionData) (e : LogEntry) (v : String)
    (h : aidSearch e.message.toList = some v) : (efAid txn e).aid = v := by
  unfold efAid; rw [h]

theorem efAppLabel_sets (txn : TransactionData) (e : LogEntry) (v : String)
    (h : appLabelSearch e.message.toList = some v) :
    (efAppLabel txn e).app_label = String.mk (pstrip v.toList) := by
  unfold efAppLabel; rw [h]

theorem efTvr_sets (txn : TransactionData) (e : LogEntry) (v : String)
    (h : tvrSearch e.message.toList = some v) : (efTvr txn e).tvr = v := by
  unfold efTvr; rw [h]

theorem efCmdSequence_sets (txn : TransactionData) (e : LogEntry) (v : String)
    (h : cmdSequenceSearch e.message.toList = some v) :
    (efCmdSequence txn e).tac_sequence = String.mk (pstrip v.toList) := by
  unfold efCmdSequence; rw [h]

theorem efAuthNumber_sets (txn : TransactionData) (e : LogEntry) (v : String)
    (h : authNumberSearch e.message.toList = some v)
    (hc : e.category = "TCP/IP") :
    (efAuthNumber txn e).authorization_number = v := by
  unfold efAuthNumber; rw [h]; simp [hc]

theorem efCvmResult_sets (txn : TransactionData) (e : LogEntry) (v : String)
    (h : cvmResultSearch e.message.toList = some v) (hv : v ≠ "3F0000") :
    (efCvmResult txn e).cvm_result = v := by
  unfold efCvmResult; rw [h]; simp [hv]

theorem efCvmResult_skip (txn : TransactionData) (e : LogEntry)
    (h : cvmResultSearch e.message.toList = some "3F0000") :
    (efCvmResult txn e).cvm_result = txn.cvm_result := by
  unfold efCvmResult; rw [h]; simp

theorem efTenderType_debit (txn : TransactionData) (e : LogEntry) (v : String)
    (h : tenderTypeSearch e.message.toList = some v)
    (hd : containsSub (pstrip v.toList) "Debit".toList = true) :
    (efTenderType txn e).card_type = "Debit" := by
  unfold efTenderType
  rw [h]
  dsimp only
  split_ifs with h1 h2 h3 h4
  · rfl
  all_goals exact absurd hd h1

/-! ## Claim theorems -/

/-- Claim C1, counterexample: in a transaction carrying two `AppID >…<`
entries the AID set by the first matching entry (`A0000000031010`, a
non-empty value) is overwritten by the second matching entry, so the
per-entry extractors are not first-match-wins as the claim states. -/
theorem claim_C1_counterexample :
    ((segGo {} (aidTwiceEntries.take 2)).2.current.map (fun t => t.aid) =
      some "A0000000031010") ∧
    (process_transactions aidTwiceEntries).map (fun t => t.aid) =
      ["A0000000041010"] ∧ ("A0000000041010" : String) ≠ "A0000000031010" := by
  exact ⟨rfl, rfl, by decide⟩

/-- Claim C1, amended: each scalar field handled by the per-entry extractors
(entry method, AID, app label, TVR, TAC sequence, authorization number,
tender-name-derived card type) is overwritten on every matching entry
(last-match-wins), regardless of any previously set value; the CVM-result
extractor still rejects the pre-PIN placeholder `3F0000`, leaving the field
untouched on that capture. -/
theorem claim_C1_amended (txn : TransactionData) (entry : LogEntry) :
    (∀ v, cardEntrySearch entry.message.toList = some v →
        entry.category = "DLL-EX" ∨ entry.category = "TCP/IP" →
        (extract_fields txn entry).entry_method = v) ∧
    (∀ v, aidSearch entry.message.toList = some v →
        (extract_fields txn entry).aid = v) ∧
    (∀ v, appLabelSearch entry.message.toList = some v →
        (extract_fields txn entry).app_label = String.mk (pstrip v.toList)) ∧
    (∀ v, tvrSearch entry.message.toList = some v →
        (extract_fields txn entry).tvr = v) ∧
    (∀ v, cmdSequenceSearch entry.message.toList = some v →
        (extract_fields txn entry).tac_sequence = String.mk (pstrip v.toList)) ∧
    (∀ v, authNumberSearch entry.message.toList = some v →
        entry.category = "TCP/IP" →
        (extract_fields txn entry).authorization_number = v) ∧
    (∀ v, cvmResultSearch entry.message.toList = some v → v ≠ "3F0000" →
        (extract_fields txn entry).cvm_result = v) ∧
    (cvmResultSearch entry.message.toList = some "3F0000" →
        (extract_fields txn entry).cvm_result = txn.cvm_result) ∧
    (∀ v, tenderTypeSearch entry.message.toList = some v →
        containsSub (pstrip v.toList) "Debit".toList = true →
        (extract_fields txn entry).card_type = "Debit") := by
  unfold extract_fields
  refine ⟨?_, ?_, ?_, ?_, ?_, ?_, ?_, ?_, ?_⟩
  · intro v h hc
    simp only [efTenderType_keeps_entry_method, efAuthNumber_keeps_entry_method,
      efQuickchip_keeps_entry_method, efCmdSequence_keeps_entry_method,
      efTvr_keeps_entry_method, efCvmResult_keeps_entry_method,
      efAppLabel_keeps_entry_method, efAid_keeps_entry_method]
    exact efCardEntry_sets txn entry v h hc
  · intro v h
    simp only [efTenderType_keeps_aid, efAuthNumber_keeps_aid, efQuickchip_keeps_aid,
      efCmdSequence_keeps_aid, efTvr_keeps_aid, efCvmResult_keeps_aid,
      efAppLabel_keeps_aid]
    exact efAid_sets _ entry v h
  · intro v h
    simp only [efTenderType_keeps_app_label, efAuthNumber_keeps_app_label,
      efQuickchip_keeps_app_label, efCmdSequence_keeps_app_label,
      efTvr_keeps_app_label, efCvmResult_keeps_app_label]
    exact efAppLabel_sets _ entry v h
  · intro v h
    simp only [efTenderType_keeps_tvr, efAuthNumber_keeps_tvr, efQuickchip_keeps_tvr,
      efCmdSequence_keeps_tvr]
    exact efTvr_sets _ entry v h
  · intro v h
    simp only [efTenderType_keeps_tac_sequence, efAuthNumber_keeps_tac_sequence,
      efQuickchip_keeps_tac_sequence]
    exact efCmdSequence_sets _ entry v h
  · intro v h hc
    simp only [efTenderType_keeps_authorization_number]
    exact efAuthNumber_sets _ entry v h hc
  · intro v h hv
    simp only [efTenderType_keeps_cvm_result, efAuthNumber_keeps_cvm_result,
      efQuickchip_keeps_cvm_result, efCmdSequence_keeps_cvm_result,
      efTvr_keeps_cvm_result]
    exact efCvmResult_sets _ entry v h hv
  · intro h
    simp only [efTenderType_keeps_cvm_result, efAuthNumber_keeps_cvm_result,
      efQuickchip_keeps_cvm_result, efCmdSequence_keeps_cvm_result,
      efTvr_keeps_cvm_result]
    rw [efCvmResult_skip _ entry h]
    simp only [efAppLabel_keeps_cvm_result, efAid_keeps_cvm_result,
      efCardEntry_keeps_cvm_result]
  · intro v h hd
    exact efTenderType_debit _ entry v h hd

/-- Claim C2, counterexample: a line matching the timestamp/category line
shape whose timestamp digits form no valid datetime (month 99) makes
`parse_line` raise `ValueError` (modelled as `Except.error`), rather than
being treated as no-match and yielding nothing. -/
theorem claim_C2_counterexample : parse_line "" badTimestampLine 1 = .error () := rfl

/-- Claim C2, amended: `parse_line` returns exactly one of a parsed entry, a
repeat directive, or nothing, except on a line that matches the line shape
while its timestamp digits form no valid datetime — exactly there it raises
(`Except.error`), a fatal error rather than a silent no-match. -/
theorem claim_C2_amended (source_file raw : String) (line_number : Nat) :
    parse_line source_file raw line_number = .error () ↔
      matchRepeat raw.toList = none ∧
      ∃ dt cat msg, matchLine raw.toList = some (dt, cat, msg) ∧
        validDateTime dt = false := by
  unfold parse_line
  cases hr : matchRepeat raw.toList with
  | some v =>
    obtain ⟨lc, rc⟩ := v
    simp
  | none =>
    cases hl : matchLine raw.toList with
    | none => simp
    | some v =>
      obtain ⟨dt, cat, msg⟩ := v
      by_cases hv : validDateTime dt
      · simp [hv]
      · simp [hv, Bool.not_eq_true] at hv ⊢

/-- Claim C6: the four-line end-to-end input, run through the parser and
transaction segmenter, yields exactly one transaction record with
`card_type="Debit"`, `amount_cents=5000`, `pan_last4="1234"`,
`entry_method="E"`, `response_code="AA"`, `is_approved=true`, and
`host_latency_ms=1743.0`. -/
theorem claim_C6_end_to_end :
    (pipelineTransactions e2eLines).map
      (fun ts => ts.map fun t =>
        (t.card_type, t.amount_cents, t.pan_last4, t.entry_method,
         t.response_code, is_approved t)) =
      .ok [("Debit", 5000, "1234", "E", "AA", true)] ∧
    (pipelineTransactions e2eLines).map
      (fun ts => ts.map fun t => t.host_latency_ms) = .ok [1743] := by
  constructor
  · rfl
  · have h : (pipelineTransactions e2eLines).map
        (fun ts => ts.map fun t => t.host_latency_ms) =
        .ok [ratOfFloatChars "1.743".toList * 1000] := rfl
    rw [h,
      show ratOfFloatChars "1.743".toList * 1000 =
        ((1 : ℚ) + (743 : ℕ) / (10 : ℚ) ^ 3) * 1000 from rfl]
    norm_num

/-- Claim C7: a closed dead run of exactly 60.0 seconds yields no issue from
the liveness-dead detector, while one of 60.001 seconds yields exactly one
issue with confidence `min(0.95, 0.5 + 60.001/3600)` — the duration
threshold is strictly greater-than 60 seconds. -/
theorem claim_C7_dead_period_boundary (t : ℚ) :
    check_scat_dead [(t, 0), (t + 60, 3)] none none = [] ∧
    check_scat_dead [(t, 0), (t + 60.001, 3)] none none =
      [{ confidence := min 0.95 (0.5 + 60.001 / 3600)
         dead_start := t
         dead_end := t + 60.001
         duration_sec := 60.001
         still_dead_at_end := false }] := by
  constructor
  · simp [check_scat_dead, scatScan, outsideWindow]
  · simp [check_scat_dead, scatScan, outsideWindow]
    norm_num

/-- Claim C8: among 20 transactions with 5 no-reads, of which 2 last under
15 000 ms (quick cancels) and the 3 long ones are consecutive, the
intermittent-card-read detector fires its acute branch with exactly one
issue of confidence `min(0.95, 0.7 + 3·0.05) = 0.85`, the 2 quick cancels
reported in the evidence as excluded. -/
theorem claim_C8_quick_cancel_filter :
    check_card_read_intermittent cardReadScenarioRows [] =
      [{ confidence := min 0.95 (0.7 + 3 * 0.05), acute := true,
         no_read_count := 3, total := 20, quick_cancels := 2, max_burst := 3,
         no_read_pct := 15, avg_wait_s := 45, total_wait_s := 135,
         timeout_pct := 100, quick_cancel_noted := true, burst_noted := true,
         timeout_noted := true, morning_noted := false,
         tr_start := 900, tr_end := 1020 }] ∧
    min (0.95 : ℚ) (0.7 + 3 * 0.05) = 0.85 := by
  constructor
  · norm_num [check_card_read_intermittent, cardReadScenarioRows, isRealNoRead,
      isNoRead, isQuickCancel, maxBurst, goodRow, quickNoReadRow, longNoReadRow,
      List.filter, List.foldl, List.filterMap, min_def]
  · norm_num

/-- Claim C3, counterexample: a fresh liveness state machine fed alive
statuses `[3, 3, 0, 0, 3]` records three transitions, not two — the initial
alive status is 9 (`ReportScatNone`), so the very first 3 already differs
and is recorded. -/
theorem claim_C3_counterexample :
    (runMachine (aliveSeqEntries 0 10 20 30 40)).alive_history.length = 3 ∧
    ¬ (runMachine (aliveSeqEntries 0 10 20 30 40)).alive_history.length = 2 := by
  exact ⟨rfl, by decide⟩

/-- Claim C3, amended: a fresh liveness state machine fed alive statuses
`[3, 3, 0, 0, 3]` records exactly 3 transitions — `(t₀, 3)` (the first 3
differs from the initial status 9), `(t₂, 0)` at the first 0, and `(t₄, 3)`
at the first 3 after the zeros; a transition is recorded only when the
status differs from the previously recorded one. -/
theorem claim_C3_amended (t0 t1 t2 t3 t4 : ℚ) :
    (runMachine (aliveSeqEntries t0 t1 t2 t3 t4)).alive_history =
      [(t0, 3, "ReportScatAlive"), (t2, 0, "ReportScatDead"),
       (t4, 3, "ReportScatAlive")] := rfl

/-- Claim C4, counterexample: two ExchangeInfo start markers with no result
line make the health segmenter emit both records — the unresolved first
record is yielded when the second start arrives, and the second (still open
at end of stream) is flushed; neither is discarded as the claim states. -/
theorem claim_C4_counterexample :
    (process_health twoExchangeStarts).map
      (fun c => (c.check_type, c.target_host, c.end_time)) =
      [("ExchangeInfo", "https://a.example.com/x", none),
       ("ExchangeInfo", "https://b.example.com/y", none)] := rfl

/-- Claim C4, amended: when a second ExchangeInfo start marker arrives while
a record is open, the unresolved record is yielded as-is (not discarded)
before a new one is opened; and a record still open at end of stream is
likewise flushed as-is. -/
theorem claim_C4_amended (rec : HealthCheckData) (e : LogEntry) (comp host : String) :
    (e.category = "SVREPS" →
      exchangeInfoSendSearch e.message.toList = some (comp, host) →
      health_step (some rec) e =
        (some { start_line := e.line_number, start_time := some e.timestamp,
                check_type := "ExchangeInfo", target_host := host }, [rec])) ∧
    healthGo (some rec) [] = [rec] := by
  constructor
  · intro hc hs
    unfold health_step
    dsimp only
    rw [if_neg (by simp [hc]), hs]
  · rfl

/-- Claim C5, counterexample: a directive with `line_count = 2` over a
buffer holding a single entry replays that one available entry instead of
being silently dropped — the claim's `[bufEntry1]`-only output is wrong. -/
theorem claim_C5_counterexample :
    expandProcess 20 [.entry bufEntry1,
        .directive { line_count := 2, repeat_count := 1, line_number := 2 }] =
      [bufEntry1, expandedCopy 1 bufEntry1] ∧
    (expandProcess 20 [.entry bufEntry1,
        .directive { line_count := 2, repeat_count := 1, line_number := 2 }]).length ≠ 1 := by
  exact ⟨rfl, by decide⟩

/-- Claim C5, amended: a directive is silently dropped only when the ring
buffer is empty; when the buffer is non-empty but holds fewer entries than
`line_count`, the expander replays all buffered entries `repeat_count`
times (a partial replay) rather than dropping the directive. -/
theorem claim_C5_amended (max_lookback : Nat) (buf : List LogEntry)
    (d : RepeatDirective) :
    (buf = [] → (expandStep max_lookback buf (.directive d)).2 = []) ∧
    (buf ≠ [] → buf.length < d.line_count →
      (expandStep max_lookback buf (.directive d)).2 =
        (List.replicate d.repeat_count (buf.map (expandedCopy d.repeat_count))).flatten) := by
  constructor
  · intro h
    subst h
    simp [expandStep, sliceLastN]
  · intro h1 h2
    have hn : d.line_count ≠ 0 := by omega
    have hd : buf.length - d.line_count = 0 := by omega
    simp [expandStep, sliceLastN, hn, hd, h1]

/-- Claim C9, counterexample: a directive with `line_count = 0` (the
parser's `(Above 0 Lines Repeated 1 Times)`) over a one-entry buffer — the
buffer holds at least 0 entries — replays the whole buffer once because the
Python slice `[-0:]` selects the entire list, yielding 1 entry where the
claim's `N×M = 0` predicts none. -/
theorem claim_C9_counterexample :
    expandProcess 20 [.entry bufEntry1,
        .directive { line_count := 0, repeat_count := 1, line_number := 2 }] =
      [bufEntry1, expandedCopy 1 bufEntry1] ∧
    (expandProcess 20 [.entry bufEntry1,
        .directive { line_count := 0, repeat_count := 1, line_number := 2 }]).length ≠
      1 + 0 * 1 := by
  exact ⟨rfl, by decide⟩

/-- Claim C9, amended: for a directive with `1 ≤ line_count = N` and
`repeat_count = M` over a buffer holding at least `N` entries, the expander
yields exactly `N×M` entries — the selected last `N` source entries in
original order, repeated `M` times, each an `expandedCopy` with
`is_expanded = true` and `expansion_count = M` — and the ring buffer is
left untouched, so expanded copies never become source material. -/
theorem claim_C9_amended (max_lookback : Nat) (buf : List LogEntry)
    (d : RepeatDirective) :
    (1 ≤ d.line_count → d.line_count ≤ buf.length →
      (expandStep max_lookback buf (.directive d)).2 =
        (List.replicate d.repeat_count
          ((buf.drop (buf.length - d.line_count)).map
            (expandedCopy d.repeat_count))).flatten ∧
      (expandStep max_lookback buf (.directive d)).2.length =
        d.line_count * d.repeat_count ∧
      ∀ x ∈ (expandStep max_lookback buf (.directive d)).2,
        x.is_expanded = true ∧ x.expansion_count = d.repeat_count) ∧
    (expandStep max_lookback buf (.directive d)).1 = buf := by
  constructor
  · intro h1 h2
    have hn : d.line_count ≠ 0 := by omega
    have hlen : (buf.drop (buf.length - d.line_count)).length = d.line_count := by
      rw [List.length_drop]
      omega
    have hne : (buf.drop (buf.length - d.line_count)).isEmpty = false := by
      cases hb : buf.drop (buf.length - d.line_count) with
      | nil => rw [hb] at hlen; simp at hlen; omega
      | cons y ys => rfl
    have hout : (expandStep max_lookback buf (.directive d)).2 =
        (List.replicate d.repeat_count
          ((buf.drop (buf.length - d.line_count)).map
            (expandedCopy d.repeat_count))).flatten := by
      simp [expandStep, sliceLastN, hn, hne]
    refine ⟨hout, ?_, ?_⟩
    · rw [hout]
      have hsub : buf.length - (buf.length - d.line_count) = d.line_count := by omega
      simp [List.length_flatten, hsub, Nat.mul_comm]
    · intro x hx
      rw [hout, List.mem_flatten] at hx
      obtain ⟨l, hl, hxl⟩ := hx
      rw [List.mem_replicate] at hl
      rw [hl.2, List.mem_map] at hxl
      obtain ⟨a, -, rfl⟩ := hxl
      exact ⟨rfl, rfl⟩
  · unfold expandStep
    dsimp only
    split <;> rfl

/-! ## The alive-history invariant of the liveness state machine -/

/-- The state-change check never touches the alive history. -/
theorem processStateMarker_alive_history (m : SCATStateMachine) (e : LogEntry) :
    (processStateMarker m e).alive_history = m.alive_history := by
  unfold processStateMarker
  rcases h : searchLeft scatStateAt e.message.toList with _ | ⟨g1, g2⟩ <;> rfl

/-- The state-change check never touches the alive status. -/
theorem processStateMarker_alive_status (m : SCATStateMachine) (e : LogEntry) :
    (processStateMarker m e).alive_status = m.alive_status := by
  unfold processStateMarker
  rcases h : searchLeft scatStateAt e.message.toList with _ | ⟨g1, g2⟩ <;> rfl

/-- The alive-status check preserves the machine invariant: adjacent
recorded transitions carry distinct statuses, and the last recorded status
equals the machine's current alive status. -/
theorem processAliveMarker_inv (m : SCATStateMachine) (e : LogEntry)
    (hch : List.Chain' (fun a b : ℚ × Nat × String => a.2.1 ≠ b.2.1) m.alive_history)
    (hlast : ∀ x, m.alive_history.getLast? = some x → x.2.1 = m.alive_status) :
    List.Chain' (fun a b : ℚ × Nat × String => a.2.1 ≠ b.2.1)
        (processAliveMarker m e).alive_history ∧
      ∀ x, (processAliveMarker m e).alive_history.getLast? = some x →
        x.2.1 = (processAliveMarker m e).alive_status := by
  unfold processAliveMarker
  rcases h : searchLeft alivePatternAt e.message.toList with _ | ⟨status, name⟩
  · exact ⟨hch, hlast⟩
  · dsimp only
    by_cases hs : status ≠ m.alive_status
    · rw [if_pos hs]
      constructor
      · refine List.chain'_append.mpr ⟨hch, List.chain'_singleton _, ?_⟩
        intro y hy z hz
        simp only [List.head?_cons, Option.mem_def, Option.some.injEq] at hz
        subst hz
        have hy2 := hlast y (Option.mem_def.mp hy)
        intro heq
        dsimp only at heq
        exact hs (by rw [← heq, hy2])
      · intro x hx
        rw [List.getLast?_concat] at hx
        obtain rfl := Option.some.inj hx
        rfl
    · rw [if_neg hs]
      exact ⟨hch, hlast⟩

/-- One `process_entry` step preserves the machine invariant. -/
theorem process_entry_inv (m : SCATStateMachine) (e : LogEntry)
    (hch : List.Chain' (fun a b : ℚ × Nat × String => a.2.1 ≠ b.2.1) m.alive_history)
    (hlast : ∀ x, m.alive_history.getLast? = some x → x.2.1 = m.alive_status) :
    List.Chain' (fun a b : ℚ × Nat × String => a.2.1 ≠ b.2.1)
        (process_entry m e).alive_history ∧
      ∀ x, (process_entry m e).alive_history.getLast? = some x →
        x.2.1 = (process_entry m e).alive_status := by
  unfold process_entry
  apply processAliveMarker_inv
  · rw [processStateMarker_alive_history]
    exact hch
  · intro x hx
    rw [processStateMarker_alive_history] at hx
    rw [processStateMarker_alive_status]
    exact hlast x hx

/-- The machine invariant holds along any fold of `process_entry`. -/
theorem foldl_process_entry_inv (entries : List LogEntry) :
    ∀ m : SCATStateMachine,
      List.Chain' (fun a b : ℚ × Nat × String => a.2.1 ≠ b.2.1) m.alive_history →
      (∀ x, m.alive_history.getLast? = some x → x.2.1 = m.alive_status) →
      List.Chain' (fun a b : ℚ × Nat × String => a.2.1 ≠ b.2.1)
          (entries.foldl process_entry m).alive_history ∧
        ∀ x, (entries.foldl process_entry m).alive_history.getLast? = some x →
          x.2.1 = (entries.foldl process_entry m).alive_status := by
  induction entries with
  | nil => intro m hch hlast; exact ⟨hch, hlast⟩
  | cons e es ih =>
    intro m hch hlast
    simp only [List.foldl_cons]
    obtain ⟨h1, h2⟩ := process_entry_inv m e hch hlast
    exact ih _ h1 h2

/-- The invariant for a fresh machine run. -/
theorem runMachine_inv (entries : List LogEntry) :
    List.Chain' (fun a b : ℚ × Nat × String => a.2.1 ≠ b.2.1)
        (runMachine entries).alive_history ∧
      ∀ x, (runMachine entries).alive_history.getLast? = some x →
        x.2.1 = (runMachine entries).alive_status := by
  unfold runMachine
  refine foldl_process_entry_inv entries {} List.chain'_nil ?_
  intro x hx
  simp at hx

/-! ## The final dead-start of the dead-period scans -/

/-- On a dedup history (adjacent statuses distinct, and a `some` initial
`dead_start` only entering against a non-zero head), the scan's final
`dead_start` is the last transition's timestamp exactly when the last
transition's status is 0. -/
theorem deadScan_final (l : List (ℚ × Nat × String)) :
    ∀ d0 : Option ℚ,
      List.Chain' (fun a b : ℚ × Nat × String => a.2.1 ≠ b.2.1) l →
      (∀ q, d0 = some q → ∀ y, l.head? = some y → y.2.1 ≠ 0) →
      ∀ x, l.getLast? = some x →
        (deadScan l d0).2 = if x.2.1 = 0 then some x.1 else none := by
  induction l with
  | nil => intro d0 _ _ x hx; simp at hx
  | cons a rest ih =>
    obtain ⟨ts, st, nm⟩ := a
    intro d0 hch hd0 x hx
    cases rest with
    | nil =>
      rw [List.getLast?_singleton] at hx
      obtain rfl := Option.some.inj hx
      cases d0 with
      | none =>
        by_cases h0 : st = 0 <;> simp [deadScan, h0]
      | some d =>
        have hne : st ≠ 0 := hd0 d rfl (ts, st, nm) rfl
        simp [deadScan, hne]
    | cons b rest2 =>
      rw [List.getLast?_cons_cons] at hx
      obtain ⟨hab, hch2⟩ := List.chain'_cons.mp hch
      cases d0 with
      | none =>
        simp only [deadScan]
        apply ih _ hch2 _ x hx
        intro q hq y hy
        by_cases h0 : st = 0
        · rw [List.head?_cons] at hy
          obtain rfl := Option.some.inj hy
          intro hy0
          exact hab (by rw [h0, hy0])
        · simp [h0] at hq
      | some d =>
        have hne : st ≠ 0 := hd0 d rfl (ts, st, nm) rfl
        simp only [deadScan]
        rw [if_pos hne]
        have := ih none hch2 (by intro q hq; simp at hq) x hx
        simp only [deadScan] at this
        dsimp only
        exact this

/-- The analogue of `deadScan_final` for the rule engine's row scan. -/
theorem scatScan_final (ws we : Option ℚ) (l : List (ℚ × Nat)) :
    ∀ d0 : Option ℚ,
      List.Chain' (fun a b : ℚ × Nat => a.2 ≠ b.2) l →
      (∀ q, d0 = some q → ∀ y, l.head? = some y → y.2 ≠ 0) →
      ∀ x, l.getLast? = some x →
        (scatScan ws we l d0).2 = if x.2 = 0 then some x.1 else none := by
  induction l with
  | nil => intro d0 _ _ x hx; simp at hx
  | cons a rest ih =>
    obtain ⟨ts, st⟩ := a
    intro d0 hch hd0 x hx
    cases rest with
    | nil =>
      rw [List.getLast?_singleton] at hx
      obtain rfl := Option.some.inj hx
      cases d0 with
      | none =>
        by_cases h0 : st = 0 <;> simp [scatScan, h0]
      | some d =>
        have hne : st ≠ 0 := hd0 d rfl (ts, st) rfl
        simp [scatScan, hne]
    | cons b rest2 =>
      rw [List.getLast?_cons_cons] at hx
      obtain ⟨hab, hch2⟩ := List.chain'_cons.mp hch
      cases d0 with
      | none =>
        simp only [scatScan]
        apply ih _ hch2 _ x hx
        intro q hq y hy
        by_cases h0 : st = 0
        · rw [List.head?_cons] at hy
          obtain rfl := Option.some.inj hy
          intro hy0
          exact hab (by rw [h0, hy0])
        · simp [h0] at hq
      | some d =>
        have hne : st ≠ 0 := hd0 d rfl (ts, st) rfl
        simp only [scatScan]
        rw [if_pos hne]
        have := ih none hch2 (by intro q hq; simp at hq) x hx
        simp only [scatScan] at this
        dsimp only
        exact this

/-- Every issue the row scan's closed-run loop emits has
`still_dead_at_end = false` (only the end-of-rows branch of
`check_scat_dead` sets it). -/
theorem scatScan_no_still_dead (ws we : Option ℚ) (l : List (ℚ × Nat)) :
    ∀ d0 i, i ∈ (scatScan ws we l d0).1 → i.still_dead_at_end = false := by
  induction l with
  | nil => intro d0 i hi; simp [scatScan] at hi
  | cons a rest ih =>
    obtain ⟨ts, st⟩ := a
    intro d0 i hi
    cases d0 with
    | none =>
      simp only [scatScan] at hi
      exact ih _ i hi
    | some d =>
      simp only [scatScan] at hi
      by_cases hne : st ≠ 0
      · rw [if_pos hne] at hi
        rcases hsc : scatScan ws we rest none with ⟨issues, fin⟩
        rw [hsc] at hi
        dsimp only at hi
        rcases List.mem_append.mp hi with hi2 | hi2
        · split_ifs at hi2 with h1 h2
          · simp only [List.mem_singleton] at hi2
            subst hi2
            rfl
          · simp at hi2
          · simp at hi2
        · exact ih none i (by rw [hsc]; exact hi2)
      · rw [if_neg hne] at hi
        exact ih _ i hi

/-- Inserting into an empty accumulator amounts to appending, as long as the
incoming rows carry timestamps pairwise distinct among themselves and from
the accumulator: no dict update ever hits an existing key. -/
theorem foldl_dictInsert_append :
    ∀ (l acc : List (ℚ × Nat)),
      (∀ p ∈ acc, ∀ q ∈ l, p.1 ≠ q.1) →
      l.Pairwise (fun a b : ℚ × Nat => a.1 ≠ b.1) →
      l.foldl dictInsert acc = acc ++ l
  | [], acc, _, _ => by simp
  | r :: rs, acc, hdisj, hpw => by
    rw [List.foldl_cons]
    have hany : acc.any (fun p => p.1 = r.1) = false := by
      rw [List.any_eq_false]
      intro p hp
      simpa using hdisj p hp r (List.mem_cons_self r rs)
    have hins : dictInsert acc r = acc ++ [r] := by
      unfold dictInsert
      rw [hany]
      simp
    rw [hins]
    obtain ⟨hr, hrs⟩ := List.pairwise_cons.mp hpw
    have hrec := foldl_dictInsert_append rs (acc ++ [r])
      (by
        intro p hp q hq
        rcases List.mem_append.mp hp with hp1 | hp2
        · exact hdisj p hp1 q (List.mem_cons_of_mem r hq)
        · rw [List.mem_singleton.mp hp2]
          exact hr q hq)
      hrs
    rw [hrec]
    simp

/-- On rows with pairwise-distinct timestamps the insert-time dedup is the
identity. -/
theorem dedupByTs_eq_self (l : List (ℚ × Nat))
    (h : l.Pairwise (fun a b : ℚ × Nat => a.1 ≠ b.1)) : dedupByTs l = l := by
  unfold dedupByTs
  rw [foldl_dictInsert_append l [] (by intro p hp; simp at hp) h]
  simp

/-- Sorting a list already strictly ascending in the timestamp column is the
identity. -/
theorem orderByTs_eq_self :
    ∀ l : List (ℚ × Nat),
      List.Chain' (fun a b : ℚ × Nat => a.1 < b.1) l → orderByTs l = l
  | [], _ => rfl
  | [_], _ => rfl
  | r :: q :: rs, h => by
    rw [List.chain'_cons] at h
    have ih := orderByTs_eq_self (q :: rs) h.2
    unfold orderByTs
    rw [ih]
    unfold insertByTs
    rw [if_neg (not_le.mpr h.1)]

/-- A strictly ascending chain in the timestamp column gives pairwise
distinct timestamps. -/
theorem chainLt_pairwise_ne (l : List (ℚ × Nat))
    (h : List.Chain' (fun a b : ℚ × Nat => a.1 < b.1) l) :
    l.Pairwise (fun a b : ℚ × Nat => a.1 ≠ b.1) := by
  haveI : IsTrans (ℚ × Nat) (fun a b : ℚ × Nat => a.1 < b.1) :=
    ⟨fun a b c hab hbc => lt_trans hab hbc⟩
  exact (List.chain'_iff_pairwise.mp h).imp fun hab => ne_of_lt hab

/-- When the recorded transition timestamps are strictly increasing, the
stored-and-reordered rows the rule engine reads back coincide with the
recording order. -/
theorem timelineRows_of_mono (m : SCATStateMachine)
    (hmono : List.Chain' (fun a b : ℚ × Nat × String => a.1 < b.1)
      m.alive_history) :
    timelineRows m = m.alive_history.map fun r => (r.1, r.2.1) := by
  unfold timelineRows
  have hmc : List.Chain' (fun a b : ℚ × Nat => a.1 < b.1)
      (m.alive_history.map fun r => (r.1, r.2.1)) :=
    List.chain'_map_of_chain' (fun r : ℚ × Nat × String => (r.1, r.2.1))
      (fun a b hab => hab) hmono
  rw [dedupByTs_eq_self _ (chainLt_pairwise_ne _ hmc), orderByTs_eq_self _ hmc]

/-- Claim C10 counterexample: a never-recovering run recorded with
out-of-order timestamps — dead at t = 300 processed first, then alive at
t = 100, then dead at t = 200.  The machine's last recorded transition has
status 0 and `get_dead_periods` still ends with the open period
(200, 200, 0), but the engine's per-timestamp-deduplicated
`ORDER BY timestamp` read-back is [(100, 3), (200, 0), (300, 0)], on which
the scan leaves `dead_start = 200` with last row timestamp 300: duration
100 > 60, so the still-dead-at-end branch fires with confidence 0.9 —
refuting the claim that it can never fire when the last recorded transition
has status 0. -/
theorem claim_C10_counterexample :
    (runMachine nonMonotonicEntries).alive_history =
      [(300, 0, "ReportScatDead"), (100, 3, "ReportScatAlive"),
       (200, 0, "ReportScatDead")] ∧
    (∃ ps, get_dead_periods (runMachine nonMonotonicEntries) =
      ps ++ [(200, 200, 0)]) ∧
    timelineRows (runMachine nonMonotonicEntries) =
      [(100, 3), (200, 0), (300, 0)] ∧
    check_scat_dead (timelineRows (runMachine nonMonotonicEntries)) none none =
      [{ confidence := 0.9, dead_start := 200, dead_end := 300,
         duration_sec := 100, still_dead_at_end := true }] := by
  refine ⟨rfl, ⟨[(300, 100, -200)], ?_⟩, rfl, ?_⟩
  · rw [show get_dead_periods (runMachine nonMonotonicEntries) =
      [(300, 100, 100 - 300), (200, 200, 200 - 200)] from rfl]
    norm_num
  · rw [show timelineRows (runMachine nonMonotonicEntries) =
      [(100, 3), (200, 0), (300, 0)] from rfl]
    norm_num [check_scat_dead, scatScan, outsideWindow,
      List.getLast?_cons_cons, List.getLast?_singleton]

/-- Claim C10 (amended): when the machine's last recorded alive transition
has status 0 (the terminal dies and never reports again), the derived
dead-period list ends with an open-ended period whose end timestamp equals
its start and whose duration is 0.0 — the last known timestamp is the dead
transition itself; and provided the recorded transition timestamps are
strictly increasing (hypothesis `hmono`, the normal monotonic-log case,
under which the engine's per-timestamp dedup and `ORDER BY timestamp`
read-back reproduce the recording order) the rule engine's
still-dead-at-end branch can never fire for such a run, its
duration > 60 s test being unsatisfiable.  With out-of-order timestamps
the branch can fire, as the counterexample shows. -/
theorem claim_C10_amended (entries : List LogEntry) (ws we : Option ℚ)
    (hmono : List.Chain' (fun a b : ℚ × Nat × String => a.1 < b.1)
      (runMachine entries).alive_history)
    (x : ℚ × Nat × String)
    (hx : (runMachine entries).alive_history.getLast? = some x)
    (hx0 : x.2.1 = 0) :
    (∃ ps, get_dead_periods (runMachine entries) = ps ++ [(x.1, x.1, 0)]) ∧
    ∀ i ∈ check_scat_dead (timelineRows (runMachine entries)) ws we,
      i.still_dead_at_end = false := by
  obtain ⟨xts, xst, xnm⟩ := x
  dsimp only at hx0
  subst hx0
  obtain ⟨hch, -⟩ := runMachine_inv entries
  constructor
  · have hfin := deadScan_final (runMachine entries).alive_history none hch
      (by intro q hq; simp at hq) (xts, 0, xnm) hx
    simp at hfin
    rcases hsc : deadScan (runMachine entries).alive_history none with ⟨periods, ds⟩
    rw [hsc] at hfin
    dsimp only at hfin
    subst hfin
    unfold get_dead_periods
    rw [hsc, hx]
    refine ⟨periods, ?_⟩
    dsimp only
    rw [sub_self]
  · rw [timelineRows_of_mono _ hmono]
    intro i hi
    have hchr : List.Chain' (fun a b : ℚ × Nat => a.2 ≠ b.2)
        ((runMachine entries).alive_history.map fun r => (r.1, r.2.1)) :=
      List.chain'_map_of_chain' (fun r : ℚ × Nat × String => (r.1, r.2.1))
        (fun a b hab => hab) hch
    have hlastr : ((runMachine entries).alive_history.map
        fun r => (r.1, r.2.1)).getLast? = some (xts, 0) := by
      rw [List.getLast?_map, hx]
      rfl
    have hfin2 := scatScan_final ws we
      ((runMachine entries).alive_history.map fun r => (r.1, r.2.1)) none hchr
      (by intro q hq; simp at hq) (xts, 0) hlastr
    simp at hfin2
    have hne : ((runMachine entries).alive_history.map
        fun r => (r.1, r.2.1)).isEmpty = false := by
      cases hrows : (runMachine entries).alive_history.map
          fun r => (r.1, r.2.1) with
      | nil => rw [hrows] at hlastr; simp at hlastr
      | cons y ys => rfl
    unfold check_scat_dead at hi
    rw [hne] at hi
    dsimp only at hi
    rcases hsc2 : scatScan ws we
        ((runMachine entries).alive_history.map fun r => (r.1, r.2.1)) none
      with ⟨issues, ds2⟩
    rw [hsc2] at hi hfin2
    dsimp only at hfin2
    subst hfin2
    rw [hlastr] at hi
    dsimp only at hi
    rw [sub_self] at hi
    norm_num at hi
    exact scatScan_no_still_dead ws we _ none i (by rw [hsc2]; exact hi)

/-- Claim C10's hypotheses realized on a concrete never-recovering stream:
alive at t = 0, dead at t = 100, nothing after. -/
theorem claim_C10_witness :
    (∃ ps, get_dead_periods (runMachine neverRecoverEntries) = ps ++ [(100, 100, 0)]) ∧
    ∀ i ∈ check_scat_dead (timelineRows (runMachine neverRecoverEntries)) none none,
      i.still_dead_at_end = false :=
  claim_C10_amended neverRecoverEntries none none
    (by rw [show (runMachine neverRecoverEntries).alive_history =
          [(0, 3, "ReportScatAlive"), (100, 0, "ReportScatDead")] from rfl]
        exact List.chain'_pair.mpr (by norm_num))
    (100, 0, "ReportScatDead") rfl rfl

end Pinpad
